import Mathlib

/-!
Verification of the adaptive quadsphere terrain engine
(src/game/terrain/quadsphere.js and src/workers/terrainWorker.js).

Shallow embedding conventions:
* JS numbers that only ever hold exact values (grid indices, job ids, node
  ids, uv coordinates, noise arithmetic) are modelled as `Nat`/`Int`/`Rat`.
  All JS arithmetic appearing here (`+ - * /` on doubles over the values the
  program feeds them, `Math.floor`, `Math.imul`, `|0`, `>>>`, `^`) is exact
  rational / 32-bit integer arithmetic, which we reproduce with explicit
  `% 2^32` wrapping.
* `Math.sqrt` / `Math.hypot` are irrational; every function that uses them
  takes an explicit square-root function `sq : ℚ → ℚ` as a parameter
  (`hypot3 sq x y z = sq (x*x+y*y+z*z)`).  The equivalence and invariant
  theorems hold for every `sq`, hence in particular for IEEE sqrt.
* THREE.js objects (BufferGeometry, Mesh, scene graph) are external
  collaborators per the spec; meshes are modelled by allocated ids, their
  buffer contents are modelled separately by the pure builder functions.
-/

namespace GalaxyWalker

/-! ### Seeded noise + FBM
quadsphere.js lines 50-114; terrainWorker.js lines 15-77 contain the same
functions verbatim, so they are embedded once. -/

/-- JS `ToUint32`: the 32-bit pattern of an integer. -/
def u32 (z : ℤ) : ℕ := (z % 4294967296).toNat

/-- JS `x | 0` (`ToInt32`). -/
def toInt32 (z : ℤ) : ℤ :=
  let m := z % 4294967296
  if m < 2147483648 then m else m - 4294967296

/-- `hash3s(x, y, z, seed)`: xor/imul mixing on 32-bit patterns, mapped to
[0,1] by dividing by 4294967295. -/
def hash3s (x y z seed : ℤ) : ℚ :=
  let h1 : ℕ := Nat.xor (u32 x) (u32 seed)
  let h2 : ℕ := Nat.xor h1 (u32 y) * 0x9e3779b1 % 4294967296
  let h3 : ℕ := Nat.xor h2 (u32 z) * 0x85ebca77 % 4294967296
  let h4 : ℕ := Nat.xor h3 (h3 >>> 16)
  (h4 : ℚ) / 4294967295

def smoothstep (t : ℚ) : ℚ := t * t * (3 - 2 * t)

def lerp (a b t : ℚ) : ℚ := a + (b - a) * t

/-- `valueNoise3Seeded`: trilinear interpolation of hashed lattice corners,
rescaled to [-1, 1]. -/
def valueNoise3Seeded (px py pz : ℚ) (seed : ℤ) : ℚ :=
  let x0 : ℤ := ⌊px⌋
  let y0 : ℤ := ⌊py⌋
  let z0 : ℤ := ⌊pz⌋
  let x1 := x0 + 1
  let y1 := y0 + 1
  let z1 := z0 + 1
  let tx := smoothstep (px - x0)
  let ty := smoothstep (py - y0)
  let tz := smoothstep (pz - z0)
  let c000 := hash3s x0 y0 z0 seed
  let c100 := hash3s x1 y0 z0 seed
  let c010 := hash3s x0 y1 z0 seed
  let c110 := hash3s x1 y1 z0 seed
  let c001 := hash3s x0 y0 z1 seed
  let c101 := hash3s x1 y0 z1 seed
  let c011 := hash3s x0 y1 z1 seed
  let c111 := hash3s x1 y1 z1 seed
  let x00 := lerp c000 c100 tx
  let x10 := lerp c010 c110 tx
  let x01 := lerp c001 c101 tx
  let x11 := lerp c011 c111 tx
  let y0v := lerp x00 x10 ty
  let y1v := lerp x01 x11 ty
  lerp y0v y1v tz * 2 - 1

/-- The octave loop of `fbm3Seeded`: state (remaining octaves, octave index,
amp, freq, accumulated sum). -/
def fbmGo (px py pz : ℚ) (seed : ℤ) (lac gain : ℚ) :
    ℕ → ℕ → ℚ → ℚ → ℚ → ℚ
  | 0, _, _, _, sum => sum
  | n + 1, i, amp, freq, sum =>
      fbmGo px py pz seed lac gain n (i + 1) (amp * gain) (freq * lac)
        (sum + amp * valueNoise3Seeded (px * freq) (py * freq) (pz * freq)
          (seed + (i : ℤ) * 1013))

/-- `fbm3Seeded(px, py, pz, seed, oct, lac, gain)`. -/
def fbm3Seeded (px py pz : ℚ) (seed : ℤ) (oct : ℕ) (lac gain : ℚ) : ℚ :=
  fbmGo px py pz seed lac gain oct 0 (1/2) 1 0

/-! ### Height field
`BodyCfg` is the record the body constructor sends to every worker
(quadsphere.js lines 1074-1081); its fields equal the values captured by the
main-thread closure (`seed = (cfg.seed ?? 101010) | 0`, `seaLevel`,
`seabedDepth = cfg.seabedDepth ?? heightAmp * 0.2`, ...). -/

structure BodyCfg where
  seed : ℤ
  baseRadius : ℚ
  heightAmp : ℚ
  heightFreq : ℚ
  seaLevel : ℚ
  seabedDepth : ℚ

/-- Worker-side `radiusAtDir(dx, dy, dz, cfg)` (terrainWorker.js 167-179).
The worker wraps the seed offset with `| 0`. -/
def radiusAtDirW (dx dy dz : ℚ) (cfg : BodyCfg) : ℚ :=
  let h := fbm3Seeded (dx * cfg.heightFreq) (dy * cfg.heightFreq)
    (dz * cfg.heightFreq) (toInt32 (cfg.seed + 17)) 5 (2.1 : ℚ) (0.52 : ℚ)
  let raw := cfg.baseRadius + cfg.heightAmp * h
  max raw (cfg.seaLevel - cfg.seabedDepth)

/-- Main-thread `this.radiusAtDir` closure (quadsphere.js 1488-1500); the
seed offset is a plain (exact) addition there. -/
def radiusAtDirMain (cfg : BodyCfg) (dx dy dz : ℚ) : ℚ :=
  let h := fbm3Seeded (dx * cfg.heightFreq) (dy * cfg.heightFreq)
    (dz * cfg.heightFreq) (cfg.seed + 17) 5 (2.1 : ℚ) (0.52 : ℚ)
  let raw := cfg.baseRadius + cfg.heightAmp * h
  max raw (cfg.seaLevel - cfg.seabedDepth)

/-! Congruence of the noise pipeline in the seed modulo 2^32: the seed is
only ever consumed through 32-bit patterns, so `| 0` wrapping is
invisible. -/

theorem u32_congr {a b : ℤ} (h : a % 4294967296 = b % 4294967296) :
    u32 a = u32 b := by
  unfold u32; rw [h]

theorem toInt32_emod (z : ℤ) : toInt32 z % 4294967296 = z % 4294967296 := by
  simp only [toInt32]
  split <;> omega

theorem hash3s_congr (x y z : ℤ) {s t : ℤ}
    (h : s % 4294967296 = t % 4294967296) :
    hash3s x y z s = hash3s x y z t := by
  unfold hash3s
  rw [u32_congr h]

theorem valueNoise3Seeded_congr (px py pz : ℚ) {s t : ℤ}
    (h : s % 4294967296 = t % 4294967296) :
    valueNoise3Seeded px py pz s = valueNoise3Seeded px py pz t := by
  unfold valueNoise3Seeded
  simp only [hash3s_congr _ _ _ h]

theorem add_emod_congr {s t : ℤ} (c : ℤ)
    (h : s % 4294967296 = t % 4294967296) :
    (s + c) % 4294967296 = (t + c) % 4294967296 := by
  rw [Int.add_emod, h, ← Int.add_emod]

theorem fbmGo_congr (px py pz : ℚ) {s t : ℤ} (lac gain : ℚ)
    (h : s % 4294967296 = t % 4294967296) :
    ∀ (n i : ℕ) (amp freq sum : ℚ),
      fbmGo px py pz s lac gain n i amp freq sum =
      fbmGo px py pz t lac gain n i amp freq sum := by
  intro n
  induction n with
  | zero => intro i amp freq sum; rfl
  | succ m ih =>
      intro i amp freq sum
      unfold fbmGo
      rw [valueNoise3Seeded_congr _ _ _ (add_emod_congr ((i : ℤ) * 1013) h)]
      exact ih (i + 1) (amp * gain) (freq * lac) _

theorem fbm3Seeded_congr (px py pz : ℚ) {s t : ℤ} (oct : ℕ) (lac gain : ℚ)
    (h : s % 4294967296 = t % 4294967296) :
    fbm3Seeded px py pz s oct lac gain = fbm3Seeded px py pz t oct lac gain :=
  fbmGo_congr px py pz lac gain h oct 0 (1/2) 1 0

/-- The worker height field and the main-thread closure agree everywhere:
the only textual difference is the `| 0` wrap on `seed + 17`, which the
noise pipeline cannot observe. -/
theorem radiusAtDirW_eq_main (dx dy dz : ℚ) (cfg : BodyCfg) :
    radiusAtDirW dx dy dz cfg = radiusAtDirMain cfg dx dy dz := by
  unfold radiusAtDirW radiusAtDirMain
  rw [fbm3Seeded_congr _ _ _ _ _ _ (toInt32_emod (cfg.seed + 17))]

/-- C2.  Height-field floor invariant: for every direction and every body
configuration, `radiusAtDir` is at least `seaLevel - seabedDepth`, because
the result is `max (baseRadius + heightAmp * fbm) (seaLevel - seabedDepth)`;
this holds identically for the worker function and the main-thread
closure. -/
theorem radiusAtDir_floor_invariant (dx dy dz : ℚ) (cfg : BodyCfg) :
    cfg.seaLevel - cfg.seabedDepth ≤ radiusAtDirW dx dy dz cfg ∧
    cfg.seaLevel - cfg.seabedDepth ≤ radiusAtDirMain cfg dx dy dz :=
  ⟨le_max_right _ _, le_max_right _ _⟩

/-! ### Cube face mapping, cubesphere correction, SDF, normals
quadsphere.js lines 126-214; terrainWorker.js lines 79-165 are verbatim
copies, embedded once.  `sq` stands for `Math.sqrt`. -/

def hypot3 (sq : ℚ → ℚ) (x y z : ℚ) : ℚ := sq (x * x + y * y + z * z)

def faceUvToCubeXYZ (face : ℕ) (u v : ℚ) : ℚ × ℚ × ℚ :=
  match face with
  | 0 => (1, v, -u)
  | 1 => (-1, v, u)
  | 2 => (u, 1, -v)
  | 3 => (u, -1, v)
  | 4 => (u, v, 1)
  | 5 => (-u, v, -1)
  | _ => (0, 1, 0)

def cubeToCubesphereDirXYZ (sq : ℚ → ℚ) (x y z : ℚ) : ℚ × ℚ × ℚ :=
  let x2 := x * x
  let y2 := y * y
  let z2 := z * z
  let sx := x * sq (1 - y2 / 2 - z2 / 2 + y2 * z2 / 3)
  let sy := y * sq (1 - z2 / 2 - x2 / 2 + z2 * x2 / 3)
  let sz := z * sq (1 - x2 / 2 - y2 / 2 + x2 * y2 / 3)
  let inv := 1 / hypot3 sq sx sy sz
  (sx * inv, sy * inv, sz * inv)

def makePlanetSdf (sq : ℚ → ℚ) (radiusAtDir : ℚ → ℚ → ℚ → ℚ) :
    ℚ → ℚ → ℚ → ℚ := fun px py pz =>
  let r := hypot3 sq px py pz
  if r < (1e-6 : ℚ) then -radiusAtDir 0 1 0
  else
    let inv := 1 / r
    r - radiusAtDir (px * inv) (py * inv) (pz * inv)

def sdfNormalXYZ (sq : ℚ → ℚ) (sdf : ℚ → ℚ → ℚ → ℚ)
    (px py pz eps : ℚ) : ℚ × ℚ × ℚ :=
  let dx := sdf (px + eps) py pz - sdf (px - eps) py pz
  let dy := sdf px (py + eps) pz - sdf px (py - eps) pz
  let dz := sdf px py (pz + eps) - sdf px py (pz - eps)
  let len := hypot3 sq dx dy dz
  if len < (1e-8 : ℚ) then (0, 1, 0)
  else
    let inv := 1 / len
    (dx * inv, dy * inv, dz * inv)

/-! ### Patch geometry builders (quadsphere.js 256-260, 417-614;
terrainWorker.js 10-13, 185-352).  Both files define the same small
helpers; the two big builder loops are duplicated in the source and are
embedded separately below. -/

def clamp01 (x : ℚ) : ℚ := if x < 0 then 0 else if x > 1 then 1 else x

def smooth01 (t : ℚ) : ℚ := t * t * (3 - 2 * t)

def smoothstep01 (a b x : ℚ) : ℚ := smooth01 (clamp01 ((x - a) / (b - a)))

def mix (a b t : ℚ) : ℚ := a + (b - a) * t

structure Color where
  r : ℚ
  g : ℚ
  b : ℚ

/-- The biome record of a body (quadsphere.js 1040-1055).  `rockStart` and
`rockSpan` are optional because the builders read them through `??`. -/
structure Biome where
  seaLevel : ℚ
  shoreWidth : ℚ
  snowHeight : ℚ
  snowLat : ℚ
  rockStart : Option ℚ
  rockSpan : Option ℚ
  deepWater : Color
  shallowWater : Color
  sand : Color
  grass : Color
  rock : Color
  snow : Color

/-- The position/normal/color buffers of one patch (base grid followed by
the four skirt strips).  Geometry/mesh assembly from these buffers is a
THREE.js concern and external to this model. -/
structure PatchBuffers where
  pos : Array ℚ
  nrm : Array ℚ
  col : Array ℚ
deriving DecidableEq

/-- `copySkirtEdge` (nested identically in both builders): duplicate one
boundary edge, pushed inward along its normal by `skirtDepth`. -/
def copySkirtEdge (N : ℕ) (skirtDepth : ℚ) (getIndex : ℕ → ℕ)
    (outOffsetVert : ℕ) (bufs : Array ℚ × Array ℚ × Array ℚ) :
    Array ℚ × Array ℚ × Array ℚ := Id.run do
  let mut pos2 := bufs.1
  let mut nrm2 := bufs.2.1
  let mut col2 := bufs.2.2
  for t in [0:N+1] do
    let baseIndex := getIndex t
    let bi3 := baseIndex * 3
    let oi3 := (outOffsetVert + t) * 3
    let nx := nrm2.getD bi3 0
    let ny := nrm2.getD (bi3 + 1) 0
    let nz := nrm2.getD (bi3 + 2) 0
    pos2 := pos2.setD oi3 (pos2.getD bi3 0 - nx * skirtDepth)
    pos2 := pos2.setD (oi3 + 1) (pos2.getD (bi3 + 1) 0 - ny * skirtDepth)
    pos2 := pos2.setD (oi3 + 2) (pos2.getD (bi3 + 2) 0 - nz * skirtDepth)
    nrm2 := nrm2.setD oi3 nx
    nrm2 := nrm2.setD (oi3 + 1) ny
    nrm2 := nrm2.setD (oi3 + 2) nz
    col2 := col2.setD oi3 (col2.getD bi3 0)
    col2 := col2.setD (oi3 + 1) (col2.getD (bi3 + 1) 0)
    col2 := col2.setD (oi3 + 2) (col2.getD (bi3 + 2) 0)
  return (pos2, nrm2, col2)

/-- Main-thread `buildPatchGeometry` (quadsphere.js 417-614), restricted to
the buffer construction; `radiusAtDir` and `sdf` are parameters exactly as
in the source (the caller passes `b.radiusAtDir` / `b.sdf`).  The final
THREE.BufferGeometry / index assembly consumes these buffers unchanged. -/
def buildPatchGeometry (sq : ℚ → ℚ) (face : ℕ) (u0 v0 u1 v1 : ℚ)
    (gridN : ℕ) (radiusAtDir : ℚ → ℚ → ℚ → ℚ) (sdf : ℚ → ℚ → ℚ → ℚ)
    (normalEps skirtDepth baseRadius seaLevel heightAmp : ℚ)
    (biome : Biome) : PatchBuffers := Id.run do
  let N := gridN
  let vertsPerSide := N + 1
  let vertCount := vertsPerSide * vertsPerSide
  let edgeVerts := 4 * vertsPerSide
  let skirtBase := vertCount
  let totalVerts := vertCount + edgeVerts
  let mut pos2 : Array ℚ := Array.mkArray (totalVerts * 3) 0
  let mut nrm2 : Array ℚ := Array.mkArray (totalVerts * 3) 0
  let mut col2 : Array ℚ := Array.mkArray (totalVerts * 3) 0
  let deepW := biome.deepWater
  let shallowW := biome.shallowWater
  let sand := biome.sand
  let grass := biome.grass
  let rock := biome.rock
  let snow := biome.snow
  let mut k := 0
  let du := (u1 - u0) / (N : ℚ)
  let dv := (v1 - v0) / (N : ℚ)
  for j in [0:N+1] do
    let v := v0 + dv * (j : ℚ)
    for i in [0:N+1] do
      let u := u0 + du * (i : ℚ)
      let (cx, cy, cz) := faceUvToCubeXYZ face u v
      let (dx, dy, dz) := cubeToCubesphereDirXYZ sq cx cy cz
      let r := radiusAtDir dx dy dz
      let px := dx * r
      let py := dy * r
      let pz := dz * r
      pos2 := pos2.setD k px
      pos2 := pos2.setD (k + 1) py
      pos2 := pos2.setD (k + 2) pz
      let (n0x, n0y, n0z) := sdfNormalXYZ sq sdf px py pz normalEps
      let s := (0.35 : ℚ)
      let nx := n0x * (1 - s) + dx * s
      let ny := n0y * (1 - s) + dy * s
      let nz := n0z * (1 - s) + dz * s
      let inv := 1 / max (1e-8 : ℚ) (hypot3 sq nx ny nz)
      nrm2 := nrm2.setD k (nx * inv)
      nrm2 := nrm2.setD (k + 1) (ny * inv)
      nrm2 := nrm2.setD (k + 2) (nz * inv)
      let height := r - baseRadius
      let lat := |dy|
      let shoreW := biome.shoreWidth
      let aboveSea := r - seaLevel
      let waterMask := 1 - smoothstep01 (-shoreW) shoreW aboveSea
      let shallowT := smoothstep01 (-shoreW * 1) (-shoreW * (0.15 : ℚ)) aboveSea
      let wR := mix deepW.r shallowW.r shallowT
      let wG := mix deepW.g shallowW.g shallowT
      let wB := mix deepW.b shallowW.b shallowT
      let sandT := 1 - smoothstep01 0 (shoreW * (1.2 : ℚ)) aboveSea
      let lR0 := mix grass.r sand.r sandT
      let lG0 := mix grass.g sand.g sandT
      let lB0 := mix grass.b sand.b sandT
      let rockStart := biome.rockStart.getD (heightAmp * (0.35 : ℚ))
      let rockEnd := rockStart + biome.rockSpan.getD (heightAmp * (0.55 : ℚ))
      let rockT := smoothstep01 rockStart rockEnd height
      let lR1 := mix lR0 rock.r rockT
      let lG1 := mix lG0 rock.g rockT
      let lB1 := mix lB0 rock.b rockT
      let snowH := biome.snowHeight
      let snowByHeight := smoothstep01 snowH (snowH + heightAmp * (0.25 : ℚ)) height
      let snowByLat := smoothstep01 biome.snowLat 1 lat
      let snowMask := clamp01 (snowByHeight * ((0.35 : ℚ) + (0.65 : ℚ) * snowByLat))
      let lR := mix lR1 snow.r snowMask
      let lG := mix lG1 snow.g snowMask
      let lB := mix lB1 snow.b snowMask
      col2 := col2.setD k (mix lR wR waterMask)
      col2 := col2.setD (k + 1) (mix lG wG waterMask)
      col2 := col2.setD (k + 2) (mix lB wB waterMask)
      k := k + 3
  let topOff := skirtBase
  let bottomOff := topOff + vertsPerSide
  let leftOff := bottomOff + vertsPerSide
  let rightOff := leftOff + vertsPerSide
  let mut bufs := (pos2, nrm2, col2)
  bufs := copySkirtEdge N skirtDepth (fun t => 0 * vertsPerSide + t) topOff bufs
  bufs := copySkirtEdge N skirtDepth (fun t => N * vertsPerSide + t) bottomOff bufs
  bufs := copySkirtEdge N skirtDepth (fun t => t * vertsPerSide + 0) leftOff bufs
  bufs := copySkirtEdge N skirtDepth (fun t => t * vertsPerSide + N) rightOff bufs
  return { pos := bufs.1, nrm := bufs.2.1, col := bufs.2.2 }

/-- A worker build request (`params` of a `build` message). -/
structure BuildParams where
  face : ℕ
  u0 : ℚ
  v0 : ℚ
  u1 : ℚ
  v1 : ℚ
  gridN : ℕ
  normalEps : ℚ
  skirtDepth : ℚ

/-- Worker-side `buildPatchBuffers(p, bodyCfg, biome)`
(terrainWorker.js 185-352): the same vertex/skirt loops coded a second
time, reading the body parameters out of `bodyCfg` and constructing the
radius function and SDF locally. -/
def buildPatchBuffers (sq : ℚ → ℚ) (p : BuildParams) (bodyCfg : BodyCfg)
    (biome : Biome) : PatchBuffers := Id.run do
  let face := p.face
  let u0 := p.u0
  let v0 := p.v0
  let u1 := p.u1
  let v1 := p.v1
  let gridN := p.gridN
  let normalEps := p.normalEps
  let skirtDepth := p.skirtDepth
  let baseRadius := bodyCfg.baseRadius
  let seaLevel := bodyCfg.seaLevel
  let heightAmp := bodyCfg.heightAmp
  let radiusAtDir := fun dx dy dz => radiusAtDirW dx dy dz bodyCfg
  let sdf := makePlanetSdf sq radiusAtDir
  let N := gridN
  let vertsPerSide := N + 1
  let vertCount := vertsPerSide * vertsPerSide
  let edgeVerts := 4 * vertsPerSide
  let skirtBase := vertCount
  let totalVerts := vertCount + edgeVerts
  let mut pos2 : Array ℚ := Array.mkArray (totalVerts * 3) 0
  let mut nrm2 : Array ℚ := Array.mkArray (totalVerts * 3) 0
  let mut col2 : Array ℚ := Array.mkArray (totalVerts * 3) 0
  let deepW := biome.deepWater
  let shallowW := biome.shallowWater
  let sand := biome.sand
  let grass := biome.grass
  let rock := biome.rock
  let snow := biome.snow
  let mut k := 0
  let du := (u1 - u0) / (N : ℚ)
  let dv := (v1 - v0) / (N : ℚ)
  for j in [0:N+1] do
    let v := v0 + dv * (j : ℚ)
    for i in [0:N+1] do
      let u := u0 + du * (i : ℚ)
      let (cx, cy, cz) := faceUvToCubeXYZ face u v
      let (dx, dy, dz) := cubeToCubesphereDirXYZ sq cx cy cz
      let r := radiusAtDir dx dy dz
      let px := dx * r
      let py := dy * r
      let pz := dz * r
      pos2 := pos2.setD k px
      pos2 := pos2.setD (k + 1) py
      pos2 := pos2.setD (k + 2) pz
      let (n0x, n0y, n0z) := sdfNormalXYZ sq sdf px py pz normalEps
      let s := (0.35 : ℚ)
      let nx := n0x * (1 - s) + dx * s
      let ny := n0y * (1 - s) + dy * s
      let nz := n0z * (1 - s) + dz * s
      let inv := 1 / max (1e-8 : ℚ) (hypot3 sq nx ny nz)
      nrm2 := nrm2.setD k (nx * inv)
      nrm2 := nrm2.setD (k + 1) (ny * inv)
      nrm2 := nrm2.setD (k + 2) (nz * inv)
      let height := r - baseRadius
      let lat := |dy|
      let shoreW := biome.shoreWidth
      let aboveSea := r - seaLevel
      let waterMask := 1 - smoothstep01 (-shoreW) shoreW aboveSea
      let shallowT := smoothstep01 (-shoreW * 1) (-shoreW * (0.15 : ℚ)) aboveSea
      let wR := mix deepW.r shallowW.r shallowT
      let wG := mix deepW.g shallowW.g shallowT
      let wB := mix deepW.b shallowW.b shallowT
      let sandT := 1 - smoothstep01 0 (shoreW * (1.2 : ℚ)) aboveSea
      let lR0 := mix grass.r sand.r sandT
      let lG0 := mix grass.g sand.g sandT
      let lB0 := mix grass.b sand.b sandT
      let rockStart := biome.rockStart.getD (heightAmp * (0.35 : ℚ))
      let rockEnd := rockStart + biome.rockSpan.getD (heightAmp * (0.55 : ℚ))
      let rockT := smoothstep01 rockStart rockEnd height
      let lR1 := mix lR0 rock.r rockT
      let lG1 := mix lG0 rock.g rockT
      let lB1 := mix lB0 rock.b rockT
      let snowH := biome.snowHeight
      let snowByHeight := smoothstep01 snowH (snowH + heightAmp * (0.25 : ℚ)) height
      let snowByLat := smoothstep01 biome.snowLat 1 lat
      let snowMask := clamp01 (snowByHeight * ((0.35 : ℚ) + (0.65 : ℚ) * snowByLat))
      let lR := mix lR1 snow.r snowMask
      let lG := mix lG1 snow.g snowMask
      let lB := mix lB1 snow.b snowMask
      col2 := col2.setD k (mix lR wR waterMask)
      col2 := col2.setD (k + 1) (mix lG wG waterMask)
      col2 := col2.setD (k + 2) (mix lB wB waterMask)
      k := k + 3
  let topOff := skirtBase
  let bottomOff := topOff + vertsPerSide
  let leftOff := bottomOff + vertsPerSide
  let rightOff := leftOff + vertsPerSide
  let mut bufs := (pos2, nrm2, col2)
  bufs := copySkirtEdge N skirtDepth (fun t => 0 * vertsPerSide + t) topOff bufs
  bufs := copySkirtEdge N skirtDepth (fun t => N * vertsPerSide + t) bottomOff bufs
  bufs := copySkirtEdge N skirtDepth (fun t => t * vertsPerSide + 0) leftOff bufs
  bufs := copySkirtEdge N skirtDepth (fun t => t * vertsPerSide + N) rightOff bufs
  return { pos := bufs.1, nrm := bufs.2.1, col := bufs.2.2 }

/-- C6.  Builder equivalence: for every square-root function, every patch
request and every body configuration, the worker's `buildPatchBuffers`
produces exactly the buffers that the main-thread synchronous
`buildPatchGeometry` produces when called the way `ensureMesh` calls it
(with the body closure `radiusAtDirMain cfg` and its derived SDF, and the
body's `baseRadius`/`seaLevel`/`heightAmp`/`biome`). -/
theorem buildPatchBuffers_eq_buildPatchGeometry (sq : ℚ → ℚ)
    (p : BuildParams) (cfg : BodyCfg) (biome : Biome) :
    buildPatchBuffers sq p cfg biome =
      buildPatchGeometry sq p.face p.u0 p.v0 p.u1 p.v1 p.gridN
        (radiusAtDirMain cfg) (makePlanetSdf sq (radiusAtDirMain cfg))
        p.normalEps p.skirtDepth cfg.baseRadius cfg.seaLevel cfg.heightAmp
        biome := by
  have h : (fun dx dy dz => radiusAtDirW dx dy dz cfg) = radiusAtDirMain cfg :=
    funext fun dx => funext fun dy => funext fun dz =>
      radiusAtDirW_eq_main dx dy dz cfg
  calc buildPatchBuffers sq p cfg biome
      = buildPatchGeometry sq p.face p.u0 p.v0 p.u1 p.v1 p.gridN
          (fun dx dy dz => radiusAtDirW dx dy dz cfg)
          (makePlanetSdf sq (fun dx dy dz => radiusAtDirW dx dy dz cfg))
          p.normalEps p.skirtDepth cfg.baseRadius cfg.seaLevel cfg.heightAmp
          biome := rfl
    _ = _ := by rw [h]

/-! ### Shared patch index cache (quadsphere.js 262-356)
Typed-array elements truncate: Uint16Array keeps values mod 2^16,
Uint32Array mod 2^32. -/

/-- Element truncation of the chosen `IndexArray`. -/
def elemStore (use32 : Bool) (v : ℕ) : ℕ :=
  v % (if use32 then 4294967296 else 65536)

/-- `_flipIndexTris`: copy and swap the 2nd/3rd index of every triangle. -/
def flipIndexTris (src : Array ℕ) : Array ℕ := Id.run do
  let mut dst := src
  for i in [0:dst.size:3] do
    let b := dst.getD (i + 1) 0
    dst := dst.setD (i + 1) (dst.getD (i + 2) 0)
    dst := dst.setD (i + 2) b
  return dst

structure PatchIndexSet where
  main : Array ℕ
  skirt : Array ℕ
  mainFlip : Array ℕ
  skirtFlip : Array ℕ
  totalVerts : ℕ
deriving DecidableEq

/-- `addSkirtStrip` (nested in `getPatchIndexSet`). -/
def addSkirtStrip (use32 : Bool) (N : ℕ) (baseGet skirtGet : ℕ → ℕ)
    (acc : Array ℕ × ℕ) : Array ℕ × ℕ := Id.run do
  let mut skirtIdx := acc.1
  let mut si := acc.2
  for t in [0:N] do
    let b0 := baseGet t
    let b1 := baseGet (t + 1)
    let s0 := skirtGet t
    let s1 := skirtGet (t + 1)
    skirtIdx := skirtIdx.setD si (elemStore use32 b0)
    si := si + 1
    skirtIdx := skirtIdx.setD si (elemStore use32 s0)
    si := si + 1
    skirtIdx := skirtIdx.setD si (elemStore use32 b1)
    si := si + 1
    skirtIdx := skirtIdx.setD si (elemStore use32 b1)
    si := si + 1
    skirtIdx := skirtIdx.setD si (elemStore use32 s0)
    si := si + 1
    skirtIdx := skirtIdx.setD si (elemStore use32 s1)
    si := si + 1
  return (skirtIdx, si)

/-- The construction body of `getPatchIndexSet` (the cache-miss path). -/
def buildPatchIndexSetRaw (N : ℕ) (use32 : Bool) : PatchIndexSet := Id.run do
  let vertsPerSide := N + 1
  let vertCount := vertsPerSide * vertsPerSide
  let edgeVerts := 4 * vertsPerSide
  let totalVerts := vertCount + edgeVerts
  let quadCount := N * N
  let mut mainIdx : Array ℕ := Array.mkArray (quadCount * 6) 0
  let mut ii := 0
  for j in [0:N] do
    let row0 := j * vertsPerSide
    let row1 := (j + 1) * vertsPerSide
    for i in [0:N] do
      let a := row0 + i
      let b := row0 + i + 1
      let c := row1 + i
      let d := row1 + i + 1
      mainIdx := mainIdx.setD ii (elemStore use32 a)
      ii := ii + 1
      mainIdx := mainIdx.setD ii (elemStore use32 c)
      ii := ii + 1
      mainIdx := mainIdx.setD ii (elemStore use32 b)
      ii := ii + 1
      mainIdx := mainIdx.setD ii (elemStore use32 b)
      ii := ii + 1
      mainIdx := mainIdx.setD ii (elemStore use32 c)
      ii := ii + 1
      mainIdx := mainIdx.setD ii (elemStore use32 d)
      ii := ii + 1
  let skirtBase := vertCount
  let topOff := skirtBase
  let bottomOff := topOff + vertsPerSide
  let leftOff := bottomOff + vertsPerSide
  let rightOff := leftOff + vertsPerSide
  let skirtTriCount := 4 * N * 2
  let mut acc : Array ℕ × ℕ := (Array.mkArray (skirtTriCount * 3) 0, 0)
  acc := addSkirtStrip use32 N (fun t => 0 * vertsPerSide + t) (fun t => topOff + t) acc
  acc := addSkirtStrip use32 N (fun t => N * vertsPerSide + t) (fun t => bottomOff + t) acc
  acc := addSkirtStrip use32 N (fun t => t * vertsPerSide + 0) (fun t => leftOff + t) acc
  acc := addSkirtStrip use32 N (fun t => t * vertsPerSide + N) (fun t => rightOff + t) acc
  return { main := mainIdx, skirt := acc.1, mainFlip := flipIndexTris mainIdx,
           skirtFlip := flipIndexTris acc.1, totalVerts := totalVerts }

/-- `_patchIndexCache`: a map keyed by the string `"N|use32"`, i.e. by the
pair `(N, use32)`. -/
def IndexCache : Type := List ((ℕ × Bool) × PatchIndexSet)

def cacheGet (c : IndexCache) (key : ℕ × Bool) : Option PatchIndexSet :=
  (List.find? (fun e => e.1 == key) c).map (fun e => e.2)

/-- `getPatchIndexSet(N, use32)`: return the cached set if present,
otherwise build it once and store it. -/
def getPatchIndexSet (N : ℕ) (use32 : Bool) (c : IndexCache) :
    PatchIndexSet × IndexCache :=
  let key := (N, use32)
  match cacheGet c key with
  | some cached => (cached, c)
  | none =>
      let out := buildPatchIndexSetRaw N use32
      (out, ((key, out) :: c : List _))

/-- `k` successive `getPatchIndexSet` requests for one configuration,
collecting the returned sets. -/
def repeatedGet (N : ℕ) (use32 : Bool) : ℕ → IndexCache → List PatchIndexSet × IndexCache
  | 0, c => ([], c)
  | k + 1, c =>
      let (s1, c1) := getPatchIndexSet N use32 c
      let (rest, c2) := repeatedGet N use32 k c1
      (s1 :: rest, c2)

theorem cacheGet_insert (c : IndexCache) (key : ℕ × Bool) (s : PatchIndexSet) :
    cacheGet (((key, s) :: c : List _)) key = some s := by
  simp [cacheGet, List.find?]

/-- C8.  Index-set caching: a miss builds the set and stores it under
`(N, use32)`; a hit returns the cached object with the cache untouched
(no rebuild); hence across any sequence of `k ≥ 1` requests for one
configuration the set is built exactly once (the cache gains exactly the
one entry) and all `k` callers receive that same object. -/
theorem getPatchIndexSet_cached_once (N : ℕ) (use32 : Bool) :
    (∀ c : IndexCache, ∀ s : PatchIndexSet, cacheGet c (N, use32) = some s →
      getPatchIndexSet N use32 c = (s, c)) ∧
    (∀ c : IndexCache, cacheGet c (N, use32) = none →
      getPatchIndexSet N use32 c =
        (buildPatchIndexSetRaw N use32,
         (((N, use32), buildPatchIndexSetRaw N use32) :: c : List _))) ∧
    (∀ c : IndexCache, cacheGet c (N, use32) = none → ∀ k : ℕ, 1 ≤ k →
      repeatedGet N use32 k c =
        (List.replicate k (buildPatchIndexSetRaw N use32),
         (((N, use32), buildPatchIndexSetRaw N use32) :: c : List _))) := by
  have hit : ∀ c : IndexCache, ∀ s : PatchIndexSet,
      cacheGet c (N, use32) = some s → getPatchIndexSet N use32 c = (s, c) := by
    intro c s h
    simp only [getPatchIndexSet, h]
  have miss : ∀ c : IndexCache, cacheGet c (N, use32) = none →
      getPatchIndexSet N use32 c =
        (buildPatchIndexSetRaw N use32,
         (((N, use32), buildPatchIndexSetRaw N use32) :: c : List _)) := by
    intro c h
    simp only [getPatchIndexSet, h]
  refine ⟨hit, miss, ?_⟩
  intro c h k hk
  have stable : ∀ m : ℕ,
      repeatedGet N use32 m
          (((((N, use32) : ℕ × Bool), buildPatchIndexSetRaw N use32) :: c : List _)) =
        (List.replicate m (buildPatchIndexSetRaw N use32),
         ((((N, use32) : ℕ × Bool), buildPatchIndexSetRaw N use32) :: c : List _)) := by
    intro m
    induction m with
    | zero => rfl
    | succ p ih =>
        unfold repeatedGet
        rw [hit _ _ (cacheGet_insert c (N, use32) (buildPatchIndexSetRaw N use32))]
        dsimp only
        rw [ih]
        rfl
  match k, hk with
  | p + 1, _ =>
      unfold repeatedGet
      rw [miss c h]
      dsimp only
      rw [stable p]
      rfl

/-- Witness for C8 at a concrete configuration: with `N = 2`, 16-bit
indices and the empty cache, three requests return the built set three
times and insert exactly one cache entry. -/
theorem getPatchIndexSet_cached_once_witness :
    repeatedGet 2 false 3 ([] : IndexCache) =
      (List.replicate 3 (buildPatchIndexSetRaw 2 false),
       ((((2 : ℕ), false), buildPatchIndexSetRaw 2 false) :: ([] : IndexCache) : List _)) :=
  (getPatchIndexSet_cached_once 2 false).2.2 ([] : IndexCache) (by decide) 3 (by decide)

/-! ### Patch node state machine (quadsphere.js 729-1005)
A `PatchNode` is modelled by a `NodeData` record plus a tree structure:
`children` is either absent (leaf) or exactly the four child nodes the
source always creates.  Object identity is modelled by `nodeId` (allocated
at construction), mesh object identity by allocated mesh ids; the THREE
geometry/scene operations on meshes are external.  `Sys` carries the
worker-pool allocation state: `pool.nextJobId`, the node-id and mesh-id
allocators, and the list of issued jobs `(jobId, nodeId)` not yet
answered.  The worker pool always exists (`TERRAIN_WORKER_COUNT =
max(1, hardwareConcurrency - 1) >= 1`) and every body has a truthy
`bodyId`, so `ensureMesh` always takes the worker path; the synchronous
fallback branch is dead in the shipped configuration. -/

structure NodeData where
  nodeId : ℕ
  face : ℕ
  level : ℕ
  u0 : ℚ
  v0 : ℚ
  u1 : ℚ
  v1 : ℚ
  meshMain : Option ℕ
  meshSkirt : Option ℕ
  genPending : Bool
  pendingJobId : ℕ
  splitInProgress : Bool
  mergeInProgress : Bool
deriving DecidableEq, Repr

inductive PTree where
  | leaf (data : NodeData)
  | node (data : NodeData) (c0 c1 c2 c3 : PTree)
deriving DecidableEq, Repr

def PTree.data : PTree → NodeData
  | .leaf d => d
  | .node d _ _ _ _ => d

/-- `hasMesh()`: both the main mesh and the skirt mesh are present. -/
def hasMesh (d : NodeData) : Bool := d.meshMain.isSome && d.meshSkirt.isSome

/-- `childrenReady()`: four children, all meshed. -/
def childrenReady : PTree → Bool
  | .leaf _ => false
  | .node _ c0 c1 c2 c3 =>
      hasMesh c0.data && hasMesh c1.data && hasMesh c2.data && hasMesh c3.data

structure Sys where
  nextJobId : ℕ
  nextNodeId : ℕ
  nextMeshId : ℕ
  issued : List (ℕ × ℕ)
deriving DecidableEq, Repr

/-- `disposeMesh()`: clear the pending flags and free both meshes
(geometry disposal and scene removal are external). -/
def disposeMesh (d : NodeData) : NodeData :=
  { d with genPending := false, pendingJobId := 0,
           meshMain := none, meshSkirt := none }

/-- `ensureMesh()` (worker path, quadsphere.js 850-871): no-op when a mesh
is present or a job is pending, otherwise request a build job from thes
pool; `pool.request` returns `nextJobId` and increments it. -/
def ensureMesh (d : NodeData) (s : Sys) : NodeData × Sys :=
  if d.meshMain.isSome || d.meshSkirt.isSome then (d, s)
  else if d.genPending then (d, s)
  else
    let jid := s.nextJobId
    ({ d with genPending := true, pendingJobId := jid },
     { s with nextJobId := jid + 1, issued := (jid, d.nodeId) :: s.issued })

/-- `_terrainWorkerFail(jobId)` (quadsphere.js 904-908). -/
def terrainWorkerFail (d : NodeData) (jobId : ℕ) : NodeData :=
  if jobId ≠ d.pendingJobId then d
  else { d with pendingJobId := 0, genPending := false }

/-- A worker `result` message: the echoed grid size and the three optional
typed-array buffers. -/
structure ResultMsg where
  gridN : ℕ
  pos : Option (Array ℚ)
  nrm : Option (Array ℚ)
  col : Option (Array ℚ)
deriving DecidableEq, Repr

/-- `_applyTerrainWorkerResult(jobId, msg)` (quadsphere.js 910-972).
The index-set lookup, geometry assembly and scene insertion run on the
accepted path and are external; accepting a result allocates the two mesh
ids.  (The `if (!b) return` guard is unreachable: `this.body` is set in
the constructor and never cleared.) -/
def applyTerrainWorkerResult (d : NodeData) (jobId : ℕ) (msg : ResultMsg)
    (s : Sys) : NodeData × Sys :=
  if jobId ≠ d.pendingJobId then (d, s)
  else
    let d1 := { d with pendingJobId := 0, genPending := false }
    if d1.meshMain.isSome || d1.meshSkirt.isSome then (d1, s)
    else
      let N := msg.gridN
      let vertsPerSide := N + 1
      let vertCount := vertsPerSide * vertsPerSide
      let edgeVerts := 4 * vertsPerSide
      let totalVerts := vertCount + edgeVerts
      match msg.pos, msg.nrm, msg.col with
      | some pos2, some _, some _ =>
          if pos2.size ≠ totalVerts * 3 then (d1, s)
          else
            ({ d1 with meshMain := some s.nextMeshId,
                       meshSkirt := some (s.nextMeshId + 1) },
             { s with nextMeshId := s.nextMeshId + 2 })
      | _, _, _ => (d1, s)

/-- `new PatchNode(body, face, level, u0, v0, u1, v1)`. -/
def newNodeData (s : Sys) (face level : ℕ) (u0 v0 u1 v1 : ℚ) :
    NodeData × Sys :=
  ({ nodeId := s.nextNodeId, face := face, level := level,
     u0 := u0, v0 := v0, u1 := u1, v1 := v1,
     meshMain := none, meshSkirt := none, genPending := false,
     pendingJobId := 0, splitInProgress := false, mergeInProgress := false },
   { s with nextNodeId := s.nextNodeId + 1 })

/-- `requestSplit()` (quadsphere.js 790-811): no-op when children exist;
otherwise ensure own coverage, create the four uv-quadrant children at
`level + 1`, set `_splitInProgress`, and `ensureMesh` each child. -/
def requestSplit : PTree → Sys → PTree × Sys
  | .node d c0 c1 c2 c3, s => (.node d c0 c1 c2 c3, s)
  | .leaf d0, s0 =>
      let ds := ensureMesh d0 s0
      let d := ds.1
      let um := (d.u0 + d.u1) * (1/2 : ℚ)
      let vm := (d.v0 + d.v1) * (1/2 : ℚ)
      let L := d.level + 1
      let f := d.face
      let k0s := newNodeData ds.2 f L d.u0 d.v0 um vm
      let k1s := newNodeData k0s.2 f L um d.v0 d.u1 vm
      let k2s := newNodeData k1s.2 f L d.u0 vm um d.v1
      let k3s := newNodeData k2s.2 f L um vm d.u1 d.v1
      let d1 := { d with splitInProgress := true }
      let e0 := ensureMesh k0s.1 k3s.2
      let e1 := ensureMesh k1s.1 e0.2
      let e2 := ensureMesh k2s.1 e1.2
      let e3 := ensureMesh k3s.1 e2.2
      (.node d1 (.leaf e0.1) (.leaf e1.1) (.leaf e2.1) (.leaf e3.1), e3.2)

/-- `_finalizeSplitIfReady()` (quadsphere.js 813-820): once all four
children are meshed, drop the parent mesh and clear the flag. -/
def finalizeSplitIfReady (t : PTree) : PTree :=
  match t with
  | .leaf d => .leaf d
  | .node d c0 c1 c2 c3 =>
      if !d.splitInProgress then .node d c0 c1 c2 c3
      else if !childrenReady (.node d c0 c1 c2 c3) then .node d c0 c1 c2 c3
      else .node { disposeMesh d with splitInProgress := false } c0 c1 c2 c3

/-- `requestMerge()` (quadsphere.js 822-838): no-op without children; with
a live parent mesh the children are destroyed immediately; otherwise mark
merging and request the parent mesh. -/
def requestMerge : PTree → Sys → PTree × Sys
  | .leaf d, s => (.leaf d, s)
  | .node d c0 c1 c2 c3, s =>
      if hasMesh d then
        (.leaf { d with splitInProgress := false, mergeInProgress := false }, s)
      else
        let d1 := { d with mergeInProgress := true }
        let ds := ensureMesh d1 s
        (.node ds.1 c0 c1 c2 c3, ds.2)

/-- `_finalizeMergeIfReady()` (quadsphere.js 840-848): once the own mesh is
present, destroy the children and clear the flag. -/
def finalizeMergeIfReady (t : PTree) : PTree :=
  match t with
  | .leaf d =>
      if d.mergeInProgress && hasMesh d then .leaf { d with mergeInProgress := false }
      else .leaf d
  | .node d c0 c1 c2 c3 =>
      if d.mergeInProgress && hasMesh d then .leaf { d with mergeInProgress := false }
      else .node d c0 c1 c2 c3

/-- `split()` = `requestSplit(); _finalizeSplitIfReady()`. -/
def splitOp (t : PTree) (s : Sys) : PTree × Sys :=
  let ts := requestSplit t s
  (finalizeSplitIfReady ts.1, ts.2)

/-- `merge()` = `requestMerge(); _finalizeMergeIfReady()`. -/
def mergeOp (t : PTree) (s : Sys) : PTree × Sys :=
  let ts := requestMerge t s
  (finalizeMergeIfReady ts.1, ts.2)

/-- C4.  Stale-result discard: a result whose `jobId` differs from the
node's outstanding `_pendingJobId` leaves the node (and the allocator
state) entirely unchanged; in particular `disposeMesh` — run on mesh
disposal and on node destruction — resets `_pendingJobId` to 0, so
late results for such nodes always mismatch. -/
theorem applyResult_stale_discard :
    (∀ (d : NodeData) (jobId : ℕ) (msg : ResultMsg) (s : Sys),
      jobId ≠ d.pendingJobId →
      applyTerrainWorkerResult d jobId msg s = (d, s)) ∧
    (∀ d : NodeData, (disposeMesh d).pendingJobId = 0 ∧
      (disposeMesh d).genPending = false) := by
  constructor
  · intro d jobId msg s h
    simp [applyTerrainWorkerResult, h]
  · intro d
    constructor <;> rfl

/-- A concrete pending node and pool state used by the C4 witness. -/
def nodeFixC4 : NodeData :=
  { nodeId := 9, face := 0, level := 1, u0 := -1, v0 := -1, u1 := 0, v1 := 0,
    meshMain := none, meshSkirt := none, genPending := true,
    pendingJobId := 5, splitInProgress := false, mergeInProgress := false }

def sysFixC4 : Sys :=
  { nextJobId := 8, nextNodeId := 10, nextMeshId := 1, issued := [] }

def msgFixC4 : ResultMsg := { gridN := 1, pos := none, nrm := none, col := none }

/-- Witness for C4: a concrete pending node and a mismatched job id. -/
theorem applyResult_stale_discard_witness :
    applyTerrainWorkerResult nodeFixC4 7 msgFixC4 sysFixC4 = (nodeFixC4, sysFixC4) :=
  applyResult_stale_discard.1 _ 7 _ _ (by decide)

/-- C9.  Malformed-result tolerance: when the job id matches but a buffer
is missing or the position buffer's length is not
`3 * ((gridN+1)^2 + 4*(gridN+1))` for the reported `gridN`, the result is
discarded without creating a mesh: the node comes back with
`_pendingJobId = 0` and `_genPending = false` and nothing else changed,
and the allocator state is untouched. -/
theorem applyResult_malformed_discard (d : NodeData) (jobId : ℕ)
    (msg : ResultMsg) (s : Sys) (hmatch : jobId = d.pendingJobId)
    (hbad : msg.pos = none ∨ msg.nrm = none ∨ msg.col = none ∨
      ∀ p2 : Array ℚ, msg.pos = some p2 →
        p2.size ≠ 3 * ((msg.gridN + 1) * (msg.gridN + 1) + 4 * (msg.gridN + 1))) :
    applyTerrainWorkerResult d jobId msg s =
      ({ d with pendingJobId := 0, genPending := false }, s) := by
  unfold applyTerrainWorkerResult
  rw [if_neg (by simp [hmatch])]
  by_cases hm : ({ d with pendingJobId := 0, genPending := false } : NodeData).meshMain.isSome
      || ({ d with pendingJobId := 0, genPending := false } : NodeData).meshSkirt.isSome
  · simp [hm]
  · rw [if_neg (by simp [hm])]
    rcases hp : msg.pos with _ | p2
    · rcases hn : msg.nrm with _ | n2 <;> rcases hc : msg.col with _ | c2 <;> rfl
    · rcases hn : msg.nrm with _ | n2
      · rcases hc : msg.col with _ | c2 <;> rfl
      · rcases hc : msg.col with _ | c2
        · rfl
        · have hsz : p2.size ≠ ((msg.gridN + 1) * (msg.gridN + 1) + 4 * (msg.gridN + 1)) * 3 := by
            rcases hbad with h | h | h | h
            · rw [hp] at h; cases h
            · rw [hn] at h; cases h
            · rw [hc] at h; cases h
            · have := h p2 hp
              omega
          simp only []
          rw [if_pos hsz]

/-- A concrete pending node, a wrongly-sized result message (35 entries
instead of 36 for gridN = 1) and a pool state, used by the C9 witness. -/
def nodeFixC9 : NodeData :=
  { nodeId := 9, face := 0, level := 1, u0 := -1, v0 := -1, u1 := 0, v1 := 0,
    meshMain := none, meshSkirt := none, genPending := true,
    pendingJobId := 5, splitInProgress := false, mergeInProgress := false }

def sysFixC9 : Sys :=
  { nextJobId := 8, nextNodeId := 10, nextMeshId := 1, issued := [] }

def msgFixC9 : ResultMsg :=
  { gridN := 1, pos := some (Array.mkArray 35 0),
    nrm := some (Array.mkArray 36 0), col := some (Array.mkArray 36 0) }

/-- Witness for C9: a matching job id with a wrongly-sized position buffer. -/
theorem applyResult_malformed_discard_witness :
    applyTerrainWorkerResult nodeFixC9 5 msgFixC9 sysFixC9 =
      ({ nodeFixC9 with pendingJobId := 0, genPending := false }, sysFixC9) :=
  applyResult_malformed_discard _ 5 _ _ (by decide)
    (Or.inr (Or.inr (Or.inr (by intro p2 hp
                                simp only [msgFixC9] at hp
                                cases hp
                                decide))))

/-- The fast path of `requestMerge`: with a live parent mesh, the children
are destroyed at once and both flags clear. -/
theorem requestMerge_fastpath (d1 : NodeData) (c0 c1 c2 c3 : PTree) (s1 : Sys)
    (h : hasMesh d1 = true) :
    requestMerge (.node d1 c0 c1 c2 c3) s1 =
      (.leaf { d1 with splitInProgress := false, mergeInProgress := false }, s1) := by
  simp only [requestMerge]
  rw [if_pos h]

/-- `requestSplit` on a leaf: the parent keeps its (ensured) data with
`_splitInProgress` set, and gains four leaf children. -/
theorem requestSplit_leaf_parts (d : NodeData) (s : Sys) :
    ∃ e0 e1 e2 e3 s2, requestSplit (.leaf d) s =
      (.node { (ensureMesh d s).1 with splitInProgress := true }
        (.leaf e0) (.leaf e1) (.leaf e2) (.leaf e3), s2) :=
  ⟨_, _, _, _, _, rfl⟩

/-- C5.  Split-cancel round trip: from Leaf-Meshed (mesh present, no
children, no transition in progress), `requestSplit` followed immediately
by `requestMerge` — before any child result is pumped — returns the node
to exactly its original Leaf-Meshed state: same mesh objects, children
null, both flags false. -/
theorem requestSplit_requestMerge_roundtrip (d : NodeData) (s : Sys)
    (hmesh : hasMesh d = true) (hsip : d.splitInProgress = false)
    (hmip : d.mergeInProgress = false) :
    (requestMerge (requestSplit (.leaf d) s).1 (requestSplit (.leaf d) s).2).1 =
      .leaf d := by
  obtain ⟨h1, h2⟩ : d.meshMain.isSome = true ∧ d.meshSkirt.isSome = true := by
    simpa [hasMesh] using hmesh
  have hens : ensureMesh d s = (d, s) := by
    unfold ensureMesh
    rw [if_pos (by rw [h1, h2]; rfl)]
  obtain ⟨e0, e1, e2, e3, s2, hsplit⟩ := requestSplit_leaf_parts d s
  rw [hens] at hsplit
  dsimp only at hsplit
  rw [hsplit]
  rw [requestMerge_fastpath _ _ _ _ _ _ (show hasMesh { d with splitInProgress := true } = true from hmesh)]
  cases d
  simp_all

/-- A concrete meshed leaf node used by the C5 witness. -/
def nodeFixC5 : NodeData :=
  { nodeId := 3, face := 2, level := 1, u0 := 0, v0 := 0, u1 := 1, v1 := 1,
    meshMain := some 11, meshSkirt := some 12, genPending := false,
    pendingJobId := 0, splitInProgress := false, mergeInProgress := false }

def sysFixC5 : Sys :=
  { nextJobId := 20, nextNodeId := 40, nextMeshId := 13, issued := [] }

/-- Witness for C5 at a concrete meshed leaf. -/
theorem requestSplit_requestMerge_roundtrip_witness :
    (requestMerge (requestSplit (.leaf nodeFixC5) sysFixC5).1
      (requestSplit (.leaf nodeFixC5) sysFixC5).2).1 = .leaf nodeFixC5 :=
  requestSplit_requestMerge_roundtrip _ _ (by decide) (by decide) (by decide)

/-- C7.  Worker-failure recovery: an error delivered for the node's
outstanding job clears `_genPending` and `_pendingJobId` and changes
nothing else (meshes stay absent), and the next `ensureMesh` issues a
fresh job (the pool's monotone `nextJobId`, which exceeds every id issued
so far, hence differs from the failed id). -/
theorem workerFail_then_ensureMesh_retries (d : NodeData) (s : Sys) (j : ℕ)
    (_hpend : d.genPending = true) (hid : d.pendingJobId = j)
    (hm1 : d.meshMain = none) (hm2 : d.meshSkirt = none)
    (hfresh : j < s.nextJobId) :
    terrainWorkerFail d j = { d with genPending := false, pendingJobId := 0 } ∧
    (ensureMesh (terrainWorkerFail d j) s).1 =
      { d with genPending := true, pendingJobId := s.nextJobId } ∧
    (ensureMesh (terrainWorkerFail d j) s).1.pendingJobId ≠ j ∧
    (ensureMesh (terrainWorkerFail d j) s).2 =
      { s with nextJobId := s.nextJobId + 1,
               issued := (s.nextJobId, d.nodeId) :: s.issued } := by
  have hfail : terrainWorkerFail d j =
      { d with genPending := false, pendingJobId := 0 } := by
    unfold terrainWorkerFail
    rw [if_neg (by simp [hid])]
  have hens : ensureMesh (terrainWorkerFail d j) s =
      ({ d with genPending := true, pendingJobId := s.nextJobId },
       { s with nextJobId := s.nextJobId + 1,
                issued := (s.nextJobId, d.nodeId) :: s.issued }) := by
    rw [hfail]
    unfold ensureMesh
    rw [if_neg (by simp [hm1, hm2])]
    rfl
  refine ⟨hfail, ?_, ?_, ?_⟩
  · rw [hens]
  · rw [hens]; simp; omega
  · rw [hens]

/-- A concrete pending node and pool state used by the C7 witness: its
job 5 fails while the pool's next id is 8. -/
def nodeFixC7 : NodeData :=
  { nodeId := 9, face := 0, level := 1, u0 := -1, v0 := -1, u1 := 0, v1 := 0,
    meshMain := none, meshSkirt := none, genPending := true,
    pendingJobId := 5, splitInProgress := false, mergeInProgress := false }

def sysFixC7 : Sys :=
  { nextJobId := 8, nextNodeId := 10, nextMeshId := 1, issued := [] }

/-- Witness for C7: after the failure the node retries and picks up the
fresh job id 8. -/
theorem workerFail_then_ensureMesh_retries_witness :
    (ensureMesh (terrainWorkerFail nodeFixC7 5) sysFixC7).1 =
      { nodeFixC7 with genPending := true, pendingJobId := 8 } :=
  (workerFail_then_ensureMesh_retries _ _ 5 (by decide) (by decide)
    (by decide) (by decide) (by decide)).2.1

/-! ### Body controller / LOD traversal (quadsphere.js 1010-1861)
`Body` keeps the traversal tunables read by `updateLOD`.  The geometric
tests `nodeInFrustum`, `nodeWorthTraversing`, `wantSplit`, `wantMerge` are
pure functions of the camera/focus position sampled once per frame; the
traversal consumes only their Boolean values, so they enter the model as
per-frame decision oracles — the invariants below hold for EVERY oracle,
hence for the real distance/frustum tests.  `Frame` carries the per-call
budgets plus instrumentation counters that count, at the exact source call
sites, the `split()` and `merge()` calls the traversal makes. -/

structure Body where
  maxLevel : ℕ
  splitBudgetPerFrame : ℕ
  mergeBudgetPerFrame : ℕ
deriving DecidableEq, Repr

structure Decisions where
  inFrustum : NodeData → Bool
  worthTraversing : NodeData → Bool
  wantSplit : NodeData → Bool
  wantMerge : NodeData → Bool

structure Frame where
  sys : Sys
  splitBudget : ℕ
  mergeBudget : ℕ
  splitInits : ℕ
  mergeInitsCulled : ℕ
  mergeInitsBudgeted : ℕ
deriving DecidableEq, Repr

/-- One iteration of the `updateLOD` stack loop for a popped node `t`
(quadsphere.js 1772-1848), followed by the processing of the children it
pushes (they sit on top of the stack, so they are processed — in reverse
push order — before anything older). -/
def processNode (B : Body) (D : Decisions) : PTree → Frame → PTree × Frame
  | .leaf d, F =>
      let worth := D.inFrustum d && D.worthTraversing d
      if !worth then
        let ds := ensureMesh d F.sys
        (.leaf ds.1, { F with sys := ds.2 })
      else
        if decide (0 < F.splitBudget) && decide (d.level < B.maxLevel) &&
            D.wantSplit d then
          let ts := splitOp (.leaf d) F.sys
          (ts.1, { F with sys := ts.2, splitBudget := F.splitBudget - 1, splitInits := F.splitInits + 1 })
        else
          let ds := ensureMesh d F.sys
          (.leaf ds.1, { F with sys := ds.2 })
  | .node d c0 c1 c2 c3, F =>
      let worth := D.inFrustum d && D.worthTraversing d
      if !worth then
        if d.splitInProgress then
          let ts := mergeOp (.leaf { d with splitInProgress := false }) F.sys
          (ts.1, { F with sys := ts.2, mergeInitsCulled := F.mergeInitsCulled + 1 })
        else
          let ts := mergeOp (.node d c0 c1 c2 c3) F.sys
          (ts.1, { F with sys := ts.2, mergeInitsCulled := F.mergeInitsCulled + 1 })
      else
        let shouldMerge := decide (1 ≤ d.level) && D.wantMerge d
        if d.splitInProgress && shouldMerge then
          let ds := ensureMesh { d with splitInProgress := false } F.sys
          (.leaf ds.1, { F with sys := ds.2 })
        else if d.splitInProgress then
          let d1 := (finalizeSplitIfReady (.node d c0 c1 c2 c3)).data
          let r3 := processNode B D c3 F
          let r2 := processNode B D c2 r3.2
          let r1 := processNode B D c1 r2.2
          let r0 := processNode B D c0 r1.2
          (.node d1 r0.1 r1.1 r2.1 r3.1, r0.2)
        else
          let d1 := if d.mergeInProgress && !shouldMerge
            then { disposeMesh d with mergeInProgress := false } else d
          if shouldMerge then
            if decide (0 < F.mergeBudget) && !d1.mergeInProgress then
              let ts := mergeOp (.node d1 c0 c1 c2 c3) F.sys
              (ts.1, { F with sys := ts.2, mergeBudget := F.mergeBudget - 1, mergeInitsBudgeted := F.mergeInitsBudgeted + 1 })
            else if d1.mergeInProgress then
              (finalizeMergeIfReady (.node d1 c0 c1 c2 c3), F)
            else
              (.node d1 c0 c1 c2 c3, F)
          else
            let r3 := processNode B D c3 F
            let r2 := processNode B D c2 r3.2
            let r1 := processNode B D c1 r2.2
            let r0 := processNode B D c0 r1.2
            (.node d1 r0.1 r1.1 r2.1 r3.1, r0.2)

/-- The stack starts as `[...roots]` and pops from the end, so the last
root is processed first; the list order itself is preserved. -/
def processStack (B : Body) (D : Decisions) : List PTree → Frame → List PTree × Frame
  | [], F => ([], F)
  | t :: rest, F =>
      let rs := processStack B D rest F
      let ts := processNode B D t rs.2
      (ts.1 :: rs.1, ts.2)

/-- `updateLOD` on one body (given this frame's decision oracles). -/
def updateLOD (B : Body) (D : Decisions) (roots : List PTree) (s : Sys) :
    List PTree × Frame :=
  processStack B D roots
    { sys := s, splitBudget := B.splitBudgetPerFrame,
      mergeBudget := B.mergeBudgetPerFrame, splitInits := 0,
      mergeInitsCulled := 0, mergeInitsBudgeted := 0 }

/-- `ensureMesh` lifted to a tree root (the method ignores children). -/
def ensureMeshT (t : PTree) (s : Sys) : PTree × Sys :=
  match t with
  | .leaf d => let ds := ensureMesh d s; (.leaf ds.1, ds.2)
  | .node d c0 c1 c2 c3 => let ds := ensureMesh d s; (.node ds.1 c0 c1 c2 c3, ds.2)

/-- One root of `forceRootsOnly` (quadsphere.js 1684-1689):
`if (r.children) r.merge(); r.ensureMesh();`. -/
def forceRootsOnly1 (t : PTree) (s : Sys) : PTree × Sys :=
  match t with
  | .leaf d => ensureMeshT (.leaf d) s
  | .node d c0 c1 c2 c3 =>
      let ts := mergeOp (.node d c0 c1 c2 c3) s
      ensureMeshT ts.1 ts.2

def forceRootsOnlyList : List PTree → Sys → List PTree × Sys
  | [], s => ([], s)
  | t :: rest, s =>
      let ts := forceRootsOnly1 t s
      let rs := forceRootsOnlyList rest ts.2
      (ts.1 :: rs.1, rs.2)

/-- Deliver one completed result to the (unique) live node with the given
`nodeId`; a result whose node is gone from the tree touches nothing (the
pool's reference then points to a destroyed object). -/
def deliverTree (jobId nid : ℕ) (msg : ResultMsg) : PTree → Sys → PTree × Sys
  | .leaf d, s =>
      if d.nodeId = nid then
        let ds := applyTerrainWorkerResult d jobId msg s
        (.leaf ds.1, ds.2)
      else (.leaf d, s)
  | .node d c0 c1 c2 c3, s =>
      let ds := if d.nodeId = nid then applyTerrainWorkerResult d jobId msg s
                else (d, s)
      let r0 := deliverTree jobId nid msg c0 ds.2
      let r1 := deliverTree jobId nid msg c1 r0.2
      let r2 := deliverTree jobId nid msg c2 r1.2
      let r3 := deliverTree jobId nid msg c3 r2.2
      (.node ds.1 r0.1 r1.1 r2.1 r3.1, r3.2)

def deliverList (jobId nid : ℕ) (msg : ResultMsg) :
    List PTree → Sys → List PTree × Sys
  | [], s => ([], s)
  | t :: rest, s =>
      let ts := deliverTree jobId nid msg t s
      let rs := deliverList jobId nid msg rest ts.2
      (ts.1 :: rs.1, rs.2)

/-- The per-body world state: the six face roots plus the pool state. -/
structure WS where
  roots : List PTree
  sys : Sys
deriving DecidableEq, Repr

def mkRoot (f : ℕ) : NodeData :=
  { nodeId := f + 1, face := f, level := 0, u0 := -1, v0 := -1, u1 := 1, v1 := 1,
    meshMain := none, meshSkirt := none, genPending := false, pendingJobId := 0,
    splitInProgress := false, mergeInProgress := false }

def ensureMeshList : List PTree → Sys → List PTree × Sys
  | [], s => ([], s)
  | t :: rest, s =>
      let ts := ensureMeshT t s
      let rs := ensureMeshList rest ts.2
      (ts.1 :: rs.1, rs.2)

/-- The constructor state (quadsphere.js 1620-1642): six level-0 roots,
then `ensureMesh` on each, issuing jobs 1..6. -/
def initialWS : WS :=
  let roots0 := [PTree.leaf (mkRoot 0), PTree.leaf (mkRoot 1),
    PTree.leaf (mkRoot 2), PTree.leaf (mkRoot 3), PTree.leaf (mkRoot 4),
    PTree.leaf (mkRoot 5)]
  let s0 : Sys := { nextJobId := 1, nextNodeId := 7, nextMeshId := 1, issued := [] }
  let rs := ensureMeshList roots0 s0
  { roots := rs.1, sys := rs.2 }

def stepLOD (B : Body) (D : Decisions) (w : WS) : WS :=
  let r := updateLOD B D w.roots w.sys
  { roots := r.1, sys := r.2.sys }

def stepDeliver (jobId nid : ℕ) (msg : ResultMsg) (w : WS) : WS :=
  let r := deliverList jobId nid msg w.roots w.sys
  { roots := r.1, sys := { r.2 with issued := r.2.issued.erase (jobId, nid) } }

def stepRootsOnly (w : WS) : WS :=
  let r := forceRootsOnlyList w.roots w.sys
  { roots := r.1, sys := r.2 }

/-- A well-formed worker result: all three buffers present and the position
buffer sized for the echoed grid (this is exactly what
`buildPatchBuffers` posts back — see `buildPatchGeometry`; an `error`
reply never reaches `pumpCompleted`). -/
def wellFormedMsg (msg : ResultMsg) : Bool :=
  msg.pos.isSome && msg.nrm.isSome && msg.col.isSome &&
    decide ((msg.pos.getD (Array.mkArray 0 0)).size =
      ((msg.gridN + 1) * (msg.gridN + 1) + 4 * (msg.gridN + 1)) * 3)

/-- States reachable from a freshly constructed body by per-frame
traversal (`updateLOD` under arbitrary per-frame camera decisions),
`forceRootsOnly`, and pumping completed build results (each delivered
result answers an issued job and carries the worker's well-formed
buffers). -/
inductive Reach (B : Body) : WS → Prop where
  | init : Reach B initialWS
  | lod (D : Decisions) {w : WS} : Reach B w → Reach B (stepLOD B D w)
  | deliver (jobId nid : ℕ) (msg : ResultMsg) {w : WS} : Reach B w →
      (jobId, nid) ∈ w.sys.issued → wellFormedMsg msg = true →
      Reach B (stepDeliver jobId nid msg w)
  | rootsOnly {w : WS} : Reach B w → Reach B (stepRootsOnly w)

/-! ### State invariants
`nodeOK` collects two per-node facts: meshes come and go in pairs, and a
node in `Splitting` still has its own coverage (mesh or pending job),
because `requestSplit` ensures coverage before setting the flag.  `goodT`
is the recursive tree invariant: every node satisfies `nodeOK`, a leaf is
meshed or pending, and a node with children has all four children good —
i.e. the region of a node with children is covered recursively by its
children.  `covB` is the coverage part alone (the shape the amended C1
claim asserts). -/

def nodeOK (d : NodeData) : Bool :=
  (d.meshMain.isSome == d.meshSkirt.isSome) &&
  (!d.splitInProgress || (hasMesh d || d.genPending))

def goodT : PTree → Bool
  | .leaf d => nodeOK d && (hasMesh d || d.genPending)
  | .node d c0 c1 c2 c3 => nodeOK d && goodT c0 && goodT c1 && goodT c2 && goodT c3

def covB : PTree → Bool
  | .leaf d => hasMesh d || d.genPending
  | .node _ c0 c1 c2 c3 => covB c0 && covB c1 && covB c2 && covB c3

theorem goodT_covB : ∀ t : PTree, goodT t = true → covB t = true := by
  intro t
  induction t with
  | leaf d => intro h; simp only [goodT, Bool.and_eq_true] at h; exact h.2
  | node d c0 c1 c2 c3 ih0 ih1 ih2 ih3 =>
      intro h
      simp only [goodT, Bool.and_eq_true] at h
      simp only [covB, Bool.and_eq_true]
      exact ⟨⟨⟨ih0 h.1.1.1.2, ih1 h.1.1.2⟩, ih2 h.1.2⟩, ih3 h.2⟩

theorem ensureMesh_ok (d : NodeData) (s : Sys) (h : nodeOK d = true) :
    nodeOK (ensureMesh d s).1 = true ∧
    (hasMesh (ensureMesh d s).1 || (ensureMesh d s).1.genPending) = true := by
  unfold nodeOK hasMesh at *
  unfold ensureMesh
  rcases hm1 : d.meshMain with _ | m1 <;> rcases hm2 : d.meshSkirt with _ | m2 <;>
    rcases hp : d.genPending with _ | _ <;> simp_all

theorem applyResult_ok (d : NodeData) (j : ℕ) (msg : ResultMsg) (s : Sys)
    (h : nodeOK d = true) (hwf : wellFormedMsg msg = true) :
    nodeOK (applyTerrainWorkerResult d j msg s).1 = true ∧
    ((hasMesh d || d.genPending) = true →
      (hasMesh (applyTerrainWorkerResult d j msg s).1 ||
        (applyTerrainWorkerResult d j msg s).1.genPending) = true) := by
  unfold applyTerrainWorkerResult
  by_cases hj : j ≠ d.pendingJobId
  · rw [if_pos hj]
    exact ⟨h, fun hc => hc⟩
  · rw [if_neg hj]
    rcases hp : msg.pos with _ | p2
    · rw [wellFormedMsg, hp] at hwf
      simp at hwf
    rcases hn : msg.nrm with _ | n2
    · rw [wellFormedMsg, hn] at hwf
      simp at hwf
    rcases hc : msg.col with _ | c2
    · rw [wellFormedMsg, hc] at hwf
      simp at hwf
    have hwf2 : p2.size = ((msg.gridN + 1) * (msg.gridN + 1) + 4 * (msg.gridN + 1)) * 3 := by
      rw [wellFormedMsg, hp, hn, hc] at hwf
      simpa using hwf
    unfold nodeOK hasMesh at *
    rcases hm1 : d.meshMain with _ | m1 <;> rcases hm2 : d.meshSkirt with _ | m2 <;>
      simp_all

theorem deliverTree_good (j nid : ℕ) (msg : ResultMsg)
    (hwf : wellFormedMsg msg = true) :
    ∀ (t : PTree) (s : Sys), goodT t = true →
      goodT (deliverTree j nid msg t s).1 = true := by
  intro t
  induction t with
  | leaf d =>
      intro s h
      simp only [goodT, Bool.and_eq_true] at h
      unfold deliverTree
      by_cases hid : d.nodeId = nid
      · rw [if_pos hid]
        obtain ⟨h1, h2⟩ := applyResult_ok d j msg s h.1 hwf
        simp only [goodT, Bool.and_eq_true]
        exact ⟨h1, h2 h.2⟩
      · rw [if_neg hid]
        simp only [goodT, Bool.and_eq_true]
        exact h
  | node d c0 c1 c2 c3 ih0 ih1 ih2 ih3 =>
      intro s h
      simp only [goodT, Bool.and_eq_true] at h
      obtain ⟨⟨⟨⟨hok, hg0⟩, hg1⟩, hg2⟩, hg3⟩ := h
      unfold deliverTree
      have hd1 : nodeOK (if d.nodeId = nid then
          applyTerrainWorkerResult d j msg s else (d, s)).1 = true := by
        by_cases hid : d.nodeId = nid
        · rw [if_pos hid]; exact (applyResult_ok d j msg s hok hwf).1
        · rw [if_neg hid]; exact hok
      simp only [goodT, Bool.and_eq_true]
      exact ⟨⟨⟨⟨hd1, ih0 _ hg0⟩, ih1 _ hg1⟩, ih2 _ hg2⟩, ih3 _ hg3⟩

theorem band_true {a b : Bool} (h : (a && b) = true) : a = true ∧ b = true := by
  simp only [Bool.and_eq_true] at h
  exact h

theorem finalizeSplit_good (t : PTree) (h : goodT t = true) :
    goodT (finalizeSplitIfReady t) = true := by
  cases t with
  | leaf d => exact h
  | node d c0 c1 c2 c3 =>
      simp only [finalizeSplitIfReady]
      split
      · exact h
      · split
        · exact h
        · simp only [goodT, Bool.and_eq_true] at h ⊢
          exact ⟨⟨⟨⟨by simp [nodeOK, disposeMesh, hasMesh], h.1.1.1.2⟩,
            h.1.1.2⟩, h.1.2⟩, h.2⟩

theorem finalizeMerge_good (t : PTree) (h : goodT t = true) :
    goodT (finalizeMergeIfReady t) = true := by
  cases t with
  | leaf d =>
      simp only [finalizeMergeIfReady]
      split
      · next hcond =>
          obtain ⟨hmip, hmesh⟩ := band_true hcond
          simp only [goodT, Bool.and_eq_true] at h ⊢
          refine ⟨?_, ?_⟩
          · have heq : nodeOK { d with mergeInProgress := false } = nodeOK d := rfl
            rw [heq]; exact h.1
          · have heq : hasMesh { d with mergeInProgress := false } = hasMesh d := rfl
            rw [heq, hmesh]; rfl
      · exact h
  | node d c0 c1 c2 c3 =>
      simp only [finalizeMergeIfReady]
      split
      · next hcond =>
          obtain ⟨hmip, hmesh⟩ := band_true hcond
          simp only [goodT, Bool.and_eq_true] at h ⊢
          refine ⟨?_, ?_⟩
          · have heq : nodeOK { d with mergeInProgress := false } = nodeOK d := rfl
            rw [heq]; exact h.1.1.1.1
          · have heq : hasMesh { d with mergeInProgress := false } = hasMesh d := rfl
            rw [heq, hmesh]; rfl
      · exact h

theorem requestMerge_good (t : PTree) (s : Sys) (h : goodT t = true) :
    goodT (requestMerge t s).1 = true := by
  cases t with
  | leaf d => exact h
  | node d c0 c1 c2 c3 =>
      simp only [goodT, Bool.and_eq_true] at h
      obtain ⟨⟨⟨⟨hok, hg0⟩, hg1⟩, hg2⟩, hg3⟩ := h
      simp only [requestMerge]
      by_cases hm : hasMesh d = true
      · rw [if_pos hm]
        simp only [goodT, Bool.and_eq_true]
        refine ⟨?_, ?_⟩
        · unfold nodeOK hasMesh at *
          simp_all
        · have heq : hasMesh { d with splitInProgress := false, mergeInProgress := false } = hasMesh d := rfl
          rw [heq, hm]; rfl
      · rw [if_neg hm]
        have hok1 : nodeOK { d with mergeInProgress := true } = true := hok
        obtain ⟨h1, _⟩ := ensureMesh_ok { d with mergeInProgress := true } s hok1
        simp only [goodT, Bool.and_eq_true]
        exact ⟨⟨⟨⟨h1, hg0⟩, hg1⟩, hg2⟩, hg3⟩

theorem mergeOp_good (t : PTree) (s : Sys) (h : goodT t = true) :
    goodT (mergeOp t s).1 = true :=
  finalizeMerge_good _ (requestMerge_good t s h)

theorem requestSplit_leaf_good (d : NodeData) (s : Sys)
    (h : goodT (.leaf d) = true) :
    goodT (requestSplit (.leaf d) s).1 = true := by
  simp only [goodT, Bool.and_eq_true] at h
  obtain ⟨hok, hcov⟩ := h
  simp only [requestSplit]
  unfold nodeOK hasMesh at *
  rcases hm1 : d.meshMain with _ | m1 <;> rcases hm2 : d.meshSkirt with _ | m2 <;>
    rcases hp : d.genPending with _ | _ <;>
    simp_all [ensureMesh, newNodeData, goodT, nodeOK, hasMesh]

theorem splitOp_leaf_good (d : NodeData) (s : Sys)
    (h : goodT (.leaf d) = true) :
    goodT (splitOp (.leaf d) s).1 = true :=
  finalizeSplit_good _ (requestSplit_leaf_good d s h)

theorem ensureMeshT_good (t : PTree) (s : Sys) (h : goodT t = true) :
    goodT (ensureMeshT t s).1 = true := by
  cases t with
  | leaf d =>
      simp only [goodT, Bool.and_eq_true] at h
      obtain ⟨h1, h2⟩ := ensureMesh_ok d s h.1
      simp only [ensureMeshT, goodT, Bool.and_eq_true]
      exact ⟨h1, h2⟩
  | node d c0 c1 c2 c3 =>
      simp only [goodT, Bool.and_eq_true] at h
      obtain ⟨⟨⟨⟨hok, hg0⟩, hg1⟩, hg2⟩, hg3⟩ := h
      obtain ⟨h1, _⟩ := ensureMesh_ok d s hok
      simp only [ensureMeshT, goodT, Bool.and_eq_true]
      exact ⟨⟨⟨⟨h1, hg0⟩, hg1⟩, hg2⟩, hg3⟩

theorem finalizeSplit_node_shape (d : NodeData) (c0 c1 c2 c3 : PTree) :
    ∃ e, finalizeSplitIfReady (.node d c0 c1 c2 c3) = .node e c0 c1 c2 c3 := by
  simp only [finalizeSplitIfReady]
  split
  · exact ⟨d, rfl⟩
  · split
    · exact ⟨d, rfl⟩
    · exact ⟨_, rfl⟩

theorem processNode_good (B : Body) (D : Decisions) :
    ∀ (t : PTree) (F : Frame), goodT t = true →
      goodT (processNode B D t F).1 = true := by
  intro t
  induction t with
  | leaf d =>
      intro F h
      simp only [goodT, Bool.and_eq_true] at h
      simp only [processNode]
      split
      · obtain ⟨h1, h2⟩ := ensureMesh_ok d F.sys h.1
        simp only [goodT, Bool.and_eq_true]
        exact ⟨h1, h2⟩
      · split
        · refine splitOp_leaf_good d F.sys ?_
          simp only [goodT, Bool.and_eq_true]
          exact h
        · obtain ⟨h1, h2⟩ := ensureMesh_ok d F.sys h.1
          simp only [goodT, Bool.and_eq_true]
          exact ⟨h1, h2⟩
  | node d c0 c1 c2 c3 ih0 ih1 ih2 ih3 =>
      intro F h
      have hparts := h
      simp only [goodT, Bool.and_eq_true] at hparts
      obtain ⟨⟨⟨⟨hok, hg0⟩, hg1⟩, hg2⟩, hg3⟩ := hparts
      have hnode : ∀ x : NodeData, nodeOK x = true →
          goodT (PTree.node x c0 c1 c2 c3) = true := fun x hx => by
        simp only [goodT, Bool.and_eq_true]
        exact ⟨⟨⟨⟨hx, hg0⟩, hg1⟩, hg2⟩, hg3⟩
      simp only [processNode]
      split
      · -- culled branch
        split
        · next hsip =>
            have hcov2 : (hasMesh d || d.genPending) = true := by
              have hx := hok
              unfold nodeOK at hx
              rw [hsip] at hx
              simpa using (band_true hx).2
            show goodT (mergeOp (PTree.leaf { d with splitInProgress := false }) F.sys).1 = true
            apply mergeOp_good
            simp only [goodT, Bool.and_eq_true]
            constructor
            · unfold nodeOK hasMesh at *
              simp_all
            · have heq : hasMesh { d with splitInProgress := false } = hasMesh d := rfl
              rw [heq]
              exact hcov2
        · show goodT (mergeOp (PTree.node d c0 c1 c2 c3) F.sys).1 = true
          exact mergeOp_good _ _ h
      · -- in view
        split
        · -- splitting, but merge is now wanted: cancel split, ensure own mesh
          have hok1 : nodeOK { d with splitInProgress := false } = true := by
            unfold nodeOK hasMesh at *
            simp_all
          obtain ⟨h1, h2⟩ := ensureMesh_ok { d with splitInProgress := false } F.sys hok1
          simp only [goodT, Bool.and_eq_true]
          exact ⟨h1, h2⟩
        · split
          · -- splitting: finalize and traverse children
            obtain ⟨e, he⟩ := finalizeSplit_node_shape d c0 c1 c2 c3
            have hfin : goodT (finalizeSplitIfReady (.node d c0 c1 c2 c3)) = true :=
              finalizeSplit_good _ h
            rw [he] at hfin
            simp only [goodT, Bool.and_eq_true] at hfin
            rw [he]
            simp only [PTree.data, goodT, Bool.and_eq_true]
            exact ⟨⟨⟨⟨hfin.1.1.1.1, ih0 _ hg0⟩, ih1 _ hg1⟩, ih2 _ hg2⟩, ih3 _ hg3⟩
          · -- not splitting
            next hsipn =>
              have hsipf : d.splitInProgress = false := by
                simp at hsipn
                exact hsipn
              have hokDisp : nodeOK { disposeMesh d with mergeInProgress := false } = true := by
                simp [nodeOK, disposeMesh, hasMesh, hsipf]
              split
              · -- merge wanted
                split
                · -- a merge-in-progress was cancelled first
                  split
                  · exact mergeOp_good _ _ (hnode _ hokDisp)
                  · split
                    · exact finalizeMerge_good _ (hnode _ hokDisp)
                    · exact hnode _ hokDisp
                · split
                  · exact mergeOp_good _ _ (hnode _ hok)
                  · split
                    · exact finalizeMerge_good _ (hnode _ hok)
                    · exact hnode _ hok
              · -- traverse children
                split
                · simp only [goodT, Bool.and_eq_true]
                  exact ⟨⟨⟨⟨hokDisp, ih0 _ hg0⟩, ih1 _ hg1⟩, ih2 _ hg2⟩, ih3 _ hg3⟩
                · simp only [goodT, Bool.and_eq_true]
                  exact ⟨⟨⟨⟨hok, ih0 _ hg0⟩, ih1 _ hg1⟩, ih2 _ hg2⟩, ih3 _ hg3⟩
theorem processStack_good (B : Body) (D : Decisions) :
    ∀ (l : List PTree) (F : Frame), l.all goodT = true →
      (processStack B D l F).1.all goodT = true := by
  intro l
  induction l with
  | nil => intro F h; exact h
  | cons t rest ih =>
      intro F h
      simp only [List.all_cons, Bool.and_eq_true] at h
      simp only [processStack, List.all_cons, Bool.and_eq_true]
      exact ⟨processNode_good B D t _ h.1, ih _ h.2⟩

theorem forceRootsOnly1_good (t : PTree) (s : Sys) (h : goodT t = true) :
    goodT (forceRootsOnly1 t s).1 = true := by
  cases t with
  | leaf d => exact ensureMeshT_good _ _ h
  | node d c0 c1 c2 c3 =>
      simp only [forceRootsOnly1]
      exact ensureMeshT_good _ _ (mergeOp_good _ _ h)

theorem forceRootsOnlyList_good :
    ∀ (l : List PTree) (s : Sys), l.all goodT = true →
      (forceRootsOnlyList l s).1.all goodT = true := by
  intro l
  induction l with
  | nil => intro s h; exact h
  | cons t rest ih =>
      intro s h
      simp only [List.all_cons, Bool.and_eq_true] at h
      simp only [forceRootsOnlyList, List.all_cons, Bool.and_eq_true]
      exact ⟨forceRootsOnly1_good t s h.1, ih _ h.2⟩

theorem deliverList_good (j nid : ℕ) (msg : ResultMsg)
    (hwf : wellFormedMsg msg = true) :
    ∀ (l : List PTree) (s : Sys), l.all goodT = true →
      (deliverList j nid msg l s).1.all goodT = true := by
  intro l
  induction l with
  | nil => intro s h; exact h
  | cons t rest ih =>
      intro s h
      simp only [List.all_cons, Bool.and_eq_true] at h
      simp only [deliverList, List.all_cons, Bool.and_eq_true]
      exact ⟨deliverTree_good j nid msg hwf t s h.1, ih _ h.2⟩

/-- Every reachable state satisfies the full node/tree invariant. -/
theorem reach_good (B : Body) (w : WS) (h : Reach B w) :
    w.roots.all goodT = true := by
  induction h with
  | init => decide
  | lod D hw ih => exact processStack_good B D _ _ ih
  | deliver j nid msg hw hmem hwf ih => exact deliverList_good j nid msg hwf _ _ ih
  | rootsOnly hw ih => exact forceRootsOnlyList_good _ _ ih

theorem all_goodT_covB (l : List PTree) (h : l.all goodT = true) :
    l.all covB = true := by
  induction l with
  | nil => rfl
  | cons t rest ih =>
      simp only [List.all_cons, Bool.and_eq_true] at h ⊢
      exact ⟨goodT_covB t h.1, ih h.2⟩

/-! ### Maximum-depth invariant (C10)
`levelsOK m` checks, over a whole tree, that every node's level is at most
`m` and that children sit exactly one level below their parent. -/

def levelsOK (m : ℕ) : PTree → Bool
  | .leaf d => decide (d.level ≤ m)
  | .node d c0 c1 c2 c3 =>
      decide (d.level ≤ m) &&
      (c0.data.level == d.level + 1) && (c1.data.level == d.level + 1) &&
      (c2.data.level == d.level + 1) && (c3.data.level == d.level + 1) &&
      levelsOK m c0 && levelsOK m c1 && levelsOK m c2 && levelsOK m c3

theorem ensureMesh_level (d : NodeData) (s : Sys) :
    (ensureMesh d s).1.level = d.level := by
  unfold ensureMesh
  split
  · rfl
  · split
    · rfl
    · rfl

theorem applyResult_level (d : NodeData) (j : ℕ) (msg : ResultMsg) (s : Sys) :
    (applyTerrainWorkerResult d j msg s).1.level = d.level := by
  unfold applyTerrainWorkerResult
  split
  · rfl
  · dsimp only
    split
    · rfl
    · rcases msg.pos with _ | p <;> rcases msg.nrm with _ | n <;>
        rcases msg.col with _ | c
      all_goals try rfl
      dsimp only
      split_ifs <;> rfl

theorem deliverTree_levels (m j nid : ℕ) (msg : ResultMsg) :
    ∀ (t : PTree) (s : Sys), levelsOK m t = true →
      levelsOK m (deliverTree j nid msg t s).1 = true ∧
      (deliverTree j nid msg t s).1.data.level = t.data.level := by
  intro t
  induction t with
  | leaf d =>
      intro s h
      simp only [deliverTree]
      by_cases hid : d.nodeId = nid
      · rw [if_pos hid]
        constructor
        · dsimp only
          simp only [levelsOK, applyResult_level] at h ⊢
          exact h
        · dsimp only
          simp only [PTree.data, applyResult_level]
      · rw [if_neg hid]
        exact ⟨h, rfl⟩
  | node d c0 c1 c2 c3 ih0 ih1 ih2 ih3 =>
      intro s h
      simp only [levelsOK, Bool.and_eq_true] at h
      obtain ⟨⟨⟨⟨⟨⟨⟨⟨hle, hc0⟩, hc1⟩, hc2⟩, hc3⟩, hl0⟩, hl1⟩, hl2⟩, hl3⟩ := h
      simp only [deliverTree]
      have hdl : (if d.nodeId = nid then applyTerrainWorkerResult d j msg s
          else (d, s)).1.level = d.level := by
        by_cases hid : d.nodeId = nid
        · rw [if_pos hid]; exact applyResult_level d j msg s
        · rw [if_neg hid]
      constructor
      · dsimp only
        simp only [levelsOK, Bool.and_eq_true]
        refine ⟨⟨⟨⟨⟨⟨⟨⟨?_, ?_⟩, ?_⟩, ?_⟩, ?_⟩, ?_⟩, ?_⟩, ?_⟩, ?_⟩
        · simp only [hdl]; exact hle
        · rw [(ih0 _ hl0).2, hdl]; exact hc0
        · rw [(ih1 _ hl1).2, hdl]; exact hc1
        · rw [(ih2 _ hl2).2, hdl]; exact hc2
        · rw [(ih3 _ hl3).2, hdl]; exact hc3
        · exact (ih0 _ hl0).1
        · exact (ih1 _ hl1).1
        · exact (ih2 _ hl2).1
        · exact (ih3 _ hl3).1
      · dsimp only
        simp only [PTree.data]
        exact hdl

theorem finalizeSplit_levels (m : ℕ) (t : PTree) (h : levelsOK m t = true) :
    levelsOK m (finalizeSplitIfReady t) = true ∧
    (finalizeSplitIfReady t).data.level = t.data.level := by
  cases t with
  | leaf d => exact ⟨h, rfl⟩
  | node d c0 c1 c2 c3 =>
      simp only [finalizeSplitIfReady]
      split
      · exact ⟨h, rfl⟩
      · split
        · exact ⟨h, rfl⟩
        · exact ⟨h, rfl⟩

theorem finalizeMerge_levels (m : ℕ) (t : PTree) (h : levelsOK m t = true) :
    levelsOK m (finalizeMergeIfReady t) = true ∧
    (finalizeMergeIfReady t).data.level = t.data.level := by
  cases t with
  | leaf d =>
      simp only [finalizeMergeIfReady]
      split
      · exact ⟨h, rfl⟩
      · exact ⟨h, rfl⟩
  | node d c0 c1 c2 c3 =>
      simp only [finalizeMergeIfReady]
      split
      · refine ⟨?_, rfl⟩
        simp only [levelsOK, Bool.and_eq_true] at h
        simp only [levelsOK]
        exact h.1.1.1.1.1.1.1.1
      · exact ⟨h, rfl⟩

theorem requestMerge_levels (m : ℕ) (t : PTree) (s : Sys)
    (h : levelsOK m t = true) :
    levelsOK m (requestMerge t s).1 = true ∧
    (requestMerge t s).1.data.level = t.data.level := by
  cases t with
  | leaf d => exact ⟨h, rfl⟩
  | node d c0 c1 c2 c3 =>
      simp only [levelsOK, Bool.and_eq_true] at h
      obtain ⟨⟨⟨⟨⟨⟨⟨⟨hle, hc0⟩, hc1⟩, hc2⟩, hc3⟩, hl0⟩, hl1⟩, hl2⟩, hl3⟩ := h
      simp only [requestMerge]
      split
      · refine ⟨?_, rfl⟩
        simp only [levelsOK]
        exact hle
      · constructor
        · simp only [levelsOK, Bool.and_eq_true, ensureMesh_level]
          exact ⟨⟨⟨⟨⟨⟨⟨⟨hle, hc0⟩, hc1⟩, hc2⟩, hc3⟩, hl0⟩, hl1⟩, hl2⟩, hl3⟩
        · simp only [PTree.data, ensureMesh_level]

theorem mergeOp_levels (m : ℕ) (t : PTree) (s : Sys)
    (h : levelsOK m t = true) :
    levelsOK m (mergeOp t s).1 = true ∧
    (mergeOp t s).1.data.level = t.data.level := by
  obtain ⟨h1, h2⟩ := requestMerge_levels m t s h
  obtain ⟨h3, h4⟩ := finalizeMerge_levels m (requestMerge t s).1 h1
  exact ⟨h3, by rw [mergeOp] at *; rw [h4, h2]⟩

theorem ensureMeshT_levels (m : ℕ) (t : PTree) (s : Sys)
    (h : levelsOK m t = true) :
    levelsOK m (ensureMeshT t s).1 = true ∧
    (ensureMeshT t s).1.data.level = t.data.level := by
  cases t with
  | leaf d =>
      constructor
      · simp only [ensureMeshT, levelsOK, ensureMesh_level]
        exact h
      · simp only [ensureMeshT, PTree.data, ensureMesh_level]
  | node d c0 c1 c2 c3 =>
      simp only [levelsOK, Bool.and_eq_true] at h
      constructor
      · simp only [ensureMeshT, levelsOK, Bool.and_eq_true, ensureMesh_level]
        exact h
      · simp only [ensureMeshT, PTree.data, ensureMesh_level]

theorem requestSplit_leaf_levels (m : ℕ) (d : NodeData) (s : Sys)
    (hlt : d.level < m) :
    levelsOK m (requestSplit (.leaf d) s).1 = true ∧
    (requestSplit (.leaf d) s).1.data.level = d.level := by
  constructor
  · simp only [requestSplit, levelsOK, PTree.data, Bool.and_eq_true]
    refine ⟨⟨⟨⟨⟨⟨⟨⟨?_, ?_⟩, ?_⟩, ?_⟩, ?_⟩, ?_⟩, ?_⟩, ?_⟩, ?_⟩
    all_goals simp [ensureMesh_level, newNodeData]
    all_goals omega
  · simp only [requestSplit, PTree.data]
    simp [ensureMesh_level]

theorem splitOp_leaf_levels (m : ℕ) (d : NodeData) (s : Sys)
    (hlt : d.level < m) :
    levelsOK m (splitOp (.leaf d) s).1 = true ∧
    (splitOp (.leaf d) s).1.data.level = d.level := by
  obtain ⟨h1, h2⟩ := requestSplit_leaf_levels m d s hlt
  obtain ⟨h3, h4⟩ := finalizeSplit_levels m (requestSplit (.leaf d) s).1 h1
  refine ⟨h3, ?_⟩
  rw [splitOp] at *
  rw [h4, h2]

theorem processNode_levels (B : Body) (D : Decisions) :
    ∀ (t : PTree) (F : Frame), levelsOK B.maxLevel t = true →
      levelsOK B.maxLevel (processNode B D t F).1 = true ∧
      (processNode B D t F).1.data.level = t.data.level := by
  intro t
  induction t with
  | leaf d =>
      intro F h
      simp only [processNode]
      split
      · constructor
        · simp only [levelsOK, ensureMesh_level]
          exact h
        · simp only [PTree.data, ensureMesh_level]
      · split
        · next hcond =>
            have hlt : d.level < B.maxLevel := by
              have h1 := (band_true (band_true hcond).1).2
              exact of_decide_eq_true h1
            exact splitOp_leaf_levels B.maxLevel d F.sys hlt
        · constructor
          · simp only [levelsOK, ensureMesh_level]
            exact h
          · simp only [PTree.data, ensureMesh_level]
  | node d c0 c1 c2 c3 ih0 ih1 ih2 ih3 =>
      intro F h
      have hparts := h
      simp only [levelsOK, Bool.and_eq_true] at hparts
      obtain ⟨⟨⟨⟨⟨⟨⟨⟨hle, hc0⟩, hc1⟩, hc2⟩, hc3⟩, hl0⟩, hl1⟩, hl2⟩, hl3⟩ := hparts
      have hnodeL : ∀ x : NodeData, x.level = d.level →
          levelsOK B.maxLevel (PTree.node x c0 c1 c2 c3) = true := by
        intro x hx
        simp only [levelsOK, Bool.and_eq_true, hx]
        exact ⟨⟨⟨⟨⟨⟨⟨⟨hle, hc0⟩, hc1⟩, hc2⟩, hc3⟩, hl0⟩, hl1⟩, hl2⟩, hl3⟩
      simp only [processNode]
      split
      · -- culled branch
        split
        · next hsip =>
            have hmo := mergeOp_levels B.maxLevel
              (PTree.leaf { d with splitInProgress := false }) F.sys
              (by simp only [levelsOK]; exact hle)
            exact ⟨hmo.1, hmo.2⟩
        · have hmo := mergeOp_levels B.maxLevel (PTree.node d c0 c1 c2 c3) F.sys h
          exact ⟨hmo.1, hmo.2⟩
      · -- in view
        split
        · constructor
          · simp only [levelsOK, ensureMesh_level]
            exact hle
          · simp only [PTree.data, ensureMesh_level]
        · split
          · -- splitting: finalize and traverse children
            obtain ⟨e, he⟩ := finalizeSplit_node_shape d c0 c1 c2 c3
            have hfs := finalizeSplit_levels B.maxLevel (.node d c0 c1 c2 c3) h
            have hdata : (finalizeSplitIfReady (PTree.node d c0 c1 c2 c3)).data = e := by
              rw [he]
              rfl
            have helev : e.level = d.level := by
              have h2 := hfs.2
              rw [hdata] at h2
              simpa [PTree.data] using h2
            rw [hdata]
            constructor
            · simp only [levelsOK, Bool.and_eq_true, helev]
              exact ⟨⟨⟨⟨⟨⟨⟨⟨hle, by rw [(ih0 _ hl0).2]; exact hc0⟩,
                by rw [(ih1 _ hl1).2]; exact hc1⟩,
                by rw [(ih2 _ hl2).2]; exact hc2⟩,
                by rw [(ih3 _ hl3).2]; exact hc3⟩,
                (ih0 _ hl0).1⟩, (ih1 _ hl1).1⟩, (ih2 _ hl2).1⟩, (ih3 _ hl3).1⟩
            · simp only [PTree.data]
              exact helev
          · -- not splitting
            split
            · -- merge wanted
              split
              · -- merge-in-progress cancelled first: parent disposed
                split
                · have hmo := mergeOp_levels B.maxLevel
                    (PTree.node { disposeMesh d with mergeInProgress := false }
                      c0 c1 c2 c3) F.sys (hnodeL _ rfl)
                  exact ⟨hmo.1, hmo.2⟩
                · split
                  · have hfm := finalizeMerge_levels B.maxLevel
                      (PTree.node { disposeMesh d with mergeInProgress := false }
                        c0 c1 c2 c3) (hnodeL _ rfl)
                    exact ⟨hfm.1, hfm.2⟩
                  · exact ⟨hnodeL _ rfl, rfl⟩
              · split
                · have hmo := mergeOp_levels B.maxLevel
                    (PTree.node d c0 c1 c2 c3) F.sys h
                  exact ⟨hmo.1, hmo.2⟩
                · split
                  · have hfm := finalizeMerge_levels B.maxLevel
                      (PTree.node d c0 c1 c2 c3) h
                    exact ⟨hfm.1, hfm.2⟩
                  · exact ⟨h, rfl⟩
            · -- traverse children
              split
              · constructor
                · simp only [levelsOK, Bool.and_eq_true]
                  refine ⟨⟨⟨⟨⟨⟨⟨⟨hle, ?_⟩, ?_⟩, ?_⟩, ?_⟩, (ih0 _ hl0).1⟩,
                    (ih1 _ hl1).1⟩, (ih2 _ hl2).1⟩, (ih3 _ hl3).1⟩
                  · rw [(ih0 _ hl0).2]; exact hc0
                  · rw [(ih1 _ hl1).2]; exact hc1
                  · rw [(ih2 _ hl2).2]; exact hc2
                  · rw [(ih3 _ hl3).2]; exact hc3
                · rfl
              · constructor
                · simp only [levelsOK, Bool.and_eq_true]
                  refine ⟨⟨⟨⟨⟨⟨⟨⟨hle, ?_⟩, ?_⟩, ?_⟩, ?_⟩, (ih0 _ hl0).1⟩,
                    (ih1 _ hl1).1⟩, (ih2 _ hl2).1⟩, (ih3 _ hl3).1⟩
                  · rw [(ih0 _ hl0).2]; exact hc0
                  · rw [(ih1 _ hl1).2]; exact hc1
                  · rw [(ih2 _ hl2).2]; exact hc2
                  · rw [(ih3 _ hl3).2]; exact hc3
                · rfl

/-- The per-root invariant for C10: all levels bounded by `m`, children one
level below their parent, and the root itself at level 0. -/
def rootOK (m : ℕ) (t : PTree) : Bool := levelsOK m t && (t.data.level == 0)

theorem processStack_rootOK (B : Body) (D : Decisions) :
    ∀ (l : List PTree) (F : Frame), l.all (rootOK B.maxLevel) = true →
      (processStack B D l F).1.all (rootOK B.maxLevel) = true := by
  intro l
  induction l with
  | nil => intro F h; exact h
  | cons t rest ih =>
      intro F h
      simp only [List.all_cons, Bool.and_eq_true] at h
      obtain ⟨⟨h1, h2⟩, hrest⟩ := (by exact ⟨band_true h.1, h.2⟩ :
        (levelsOK B.maxLevel t = true ∧ (t.data.level == 0) = true) ∧
        rest.all (rootOK B.maxLevel) = true)
      simp only [processStack, List.all_cons, Bool.and_eq_true]
      obtain ⟨hp1, hp2⟩ := processNode_levels B D t (processStack B D rest F).2 h1
      refine ⟨?_, ih _ hrest⟩
      simp only [rootOK, Bool.and_eq_true]
      exact ⟨hp1, by rw [hp2]; exact h2⟩

theorem deliverList_rootOK (j nid : ℕ) (msg : ResultMsg) (m : ℕ) :
    ∀ (l : List PTree) (s : Sys), l.all (rootOK m) = true →
      (deliverList j nid msg l s).1.all (rootOK m) = true := by
  intro l
  induction l with
  | nil => intro s h; exact h
  | cons t rest ih =>
      intro s h
      simp only [List.all_cons, Bool.and_eq_true] at h
      obtain ⟨h1, h2⟩ := band_true h.1
      simp only [deliverList, List.all_cons, Bool.and_eq_true]
      obtain ⟨hp1, hp2⟩ := deliverTree_levels m j nid msg t s h1
      refine ⟨?_, ih _ h.2⟩
      simp only [rootOK, Bool.and_eq_true]
      exact ⟨hp1, by rw [hp2]; exact h2⟩

theorem forceRootsOnly1_rootOK (m : ℕ) (t : PTree) (s : Sys)
    (h : rootOK m t = true) :
    rootOK m (forceRootsOnly1 t s).1 = true := by
  obtain ⟨h1, h2⟩ := band_true h
  cases t with
  | leaf d =>
      obtain ⟨he1, he2⟩ := ensureMeshT_levels m (.leaf d) s h1
      simp only [forceRootsOnly1, rootOK, Bool.and_eq_true]
      exact ⟨he1, by rw [he2]; exact h2⟩
  | node d c0 c1 c2 c3 =>
      obtain ⟨hm1, hm2⟩ := mergeOp_levels m (.node d c0 c1 c2 c3) s h1
      obtain ⟨he1, he2⟩ := ensureMeshT_levels m (mergeOp (.node d c0 c1 c2 c3) s).1
        (mergeOp (.node d c0 c1 c2 c3) s).2 hm1
      simp only [forceRootsOnly1, rootOK, Bool.and_eq_true]
      exact ⟨he1, by rw [he2, hm2]; exact h2⟩

theorem forceRootsOnlyList_rootOK (m : ℕ) :
    ∀ (l : List PTree) (s : Sys), l.all (rootOK m) = true →
      (forceRootsOnlyList l s).1.all (rootOK m) = true := by
  intro l
  induction l with
  | nil => intro s h; exact h
  | cons t rest ih =>
      intro s h
      simp only [List.all_cons, Bool.and_eq_true] at h
      simp only [forceRootsOnlyList, List.all_cons, Bool.and_eq_true]
      exact ⟨forceRootsOnly1_rootOK m t s h.1, ih _ h.2⟩

theorem reach_rootOK (B : Body) (w : WS) (h : Reach B w) :
    w.roots.all (rootOK B.maxLevel) = true := by
  induction h with
  | init =>
      simp [initialWS, ensureMeshList, ensureMeshT, ensureMesh, mkRoot,
        rootOK, levelsOK, PTree.data]
  | lod D hw ih => exact processStack_rootOK B D _ _ ih
  | deliver j nid msg hw hmem hwf ih => exact deliverList_rootOK j nid msg _ _ _ ih
  | rootsOnly hw ih => exact forceRootsOnlyList_rootOK _ _ _ ih

/-- C10.  Maximum-depth invariant: in every state reachable from a fresh
body via `updateLOD` (any per-frame camera decisions), `forceRootsOnly` and
result pumping, every node's level lies between 0 and `maxLevel`: the six
roots stay at level 0, children always sit exactly one level below their
parent, and — because the traversal only initiates a split when
`level < maxLevel` — no node ever exceeds `maxLevel`. -/
theorem max_depth_invariant (B : Body) (w : WS) (h : Reach B w) :
    w.roots.all (fun t => levelsOK B.maxLevel t && (t.data.level == 0)) = true :=
  reach_rootOK B w h

/-- Witness for C10: the invariant evaluated at the freshly constructed
body state, with the default traversal configuration (maxLevel 9,
budgets 6). -/
theorem max_depth_invariant_witness :
    initialWS.roots.all
      (fun t => levelsOK (9 : ℕ) t && (t.data.level == 0)) = true :=
  max_depth_invariant
    { maxLevel := 9, splitBudgetPerFrame := 6, mergeBudgetPerFrame := 6 }
    initialWS Reach.init

theorem finalizeSplit_guard (t : PTree) (h : childrenReady t = false) :
    finalizeSplitIfReady t = t := by
  cases t with
  | leaf d => rfl
  | node d c0 c1 c2 c3 =>
      simp only [finalizeSplitIfReady]
      split
      · rfl
      · split
        · rfl
        · simp_all

theorem finalizeMerge_guard (t : PTree) (h : hasMesh t.data = false) :
    finalizeMergeIfReady t = t := by
  cases t with
  | leaf d =>
      simp only [PTree.data] at h
      simp only [finalizeMergeIfReady]
      split
      · next hc => rw [h] at hc; simp at hc
      · rfl
  | node d c0 c1 c2 c3 =>
      simp only [PTree.data] at h
      simp only [finalizeMergeIfReady]
      split
      · next hc => rw [h] at hc; simp at hc
      · rfl

/-- C1 (amended).  Coverage invariant: in every state reachable by the
traversal and result-pump operations, every PatchNode either has its own
mesh, or has an outstanding generation job (`_genPending`), or has four
children that are themselves recursively covered in this sense (`covB`);
moreover `_finalizeSplitIfReady` drops the parent mesh only when all four
children have meshes, and `_finalizeMergeIfReady` destroys the children
only when the node's own mesh is present.  (The original claim's stronger
per-node disjunct "four fully-meshed children" fails on reachable states:
see the counterexample.) -/
theorem coverage_invariant (B : Body) (w : WS) (h : Reach B w) :
    w.roots.all covB = true ∧
    (∀ t : PTree, childrenReady t = false → finalizeSplitIfReady t = t) ∧
    (∀ t : PTree, hasMesh t.data = false → finalizeMergeIfReady t = t) :=
  ⟨all_goodT_covB w.roots (reach_good B w h), finalizeSplit_guard,
   finalizeMerge_guard⟩

/-- Witness for C1 (amended) at the freshly constructed body state. -/
theorem coverage_invariant_witness : initialWS.roots.all covB = true :=
  (coverage_invariant
    { maxLevel := 9, splitBudgetPerFrame := 6, mergeBudgetPerFrame := 6 }
    initialWS Reach.init).1

/-! ### Per-frame budget accounting (C3) -/

theorem processNode_budget (B : Body) (D : Decisions) :
    ∀ (t : PTree) (F : Frame),
      (processNode B D t F).2.splitInits + (processNode B D t F).2.splitBudget
        = F.splitInits + F.splitBudget ∧
      (processNode B D t F).2.mergeInitsBudgeted +
          (processNode B D t F).2.mergeBudget
        = F.mergeInitsBudgeted + F.mergeBudget := by
  intro t
  induction t with
  | leaf d =>
      intro F
      simp only [processNode]
      split
      · exact ⟨rfl, rfl⟩
      · split
        · next hcond =>
            have hpos : 0 < F.splitBudget :=
              of_decide_eq_true (band_true (band_true hcond).1).1
            constructor
            · dsimp only
              omega
            · rfl
        · exact ⟨rfl, rfl⟩
  | node d c0 c1 c2 c3 ih0 ih1 ih2 ih3 =>
      intro F
      simp only [processNode]
      split
      · split
        · exact ⟨rfl, rfl⟩
        · exact ⟨rfl, rfl⟩
      · split
        · exact ⟨rfl, rfl⟩
        · split
          · -- splitting: children processed in stack order c3, c2, c1, c0
            have h3 := ih3 F
            have h2 := ih2 (processNode B D c3 F).2
            have h1 := ih1 (processNode B D c2 (processNode B D c3 F).2).2
            have h0 := ih0 (processNode B D c1
              (processNode B D c2 (processNode B D c3 F).2).2).2
            constructor
            · dsimp only
              omega
            · dsimp only
              omega
          · split
            · -- merge wanted
              split
              · -- merge-cancel happened (parent disposed)
                split
                · next hcond =>
                    have hpos : 0 < F.mergeBudget :=
                      of_decide_eq_true (band_true hcond).1
                    constructor
                    · rfl
                    · dsimp only
                      omega
                · split
                  · exact ⟨rfl, rfl⟩
                  · exact ⟨rfl, rfl⟩
              · split
                · next hcond =>
                    have hpos : 0 < F.mergeBudget :=
                      of_decide_eq_true (band_true hcond).1
                    constructor
                    · rfl
                    · dsimp only
                      omega
                · split
                  · exact ⟨rfl, rfl⟩
                  · exact ⟨rfl, rfl⟩
            · -- traverse children
              split
              · have h3 := ih3 F
                have h2 := ih2 (processNode B D c3 F).2
                have h1 := ih1 (processNode B D c2 (processNode B D c3 F).2).2
                have h0 := ih0 (processNode B D c1
                  (processNode B D c2 (processNode B D c3 F).2).2).2
                constructor
                · dsimp only
                  omega
                · dsimp only
                  omega
              · have h3 := ih3 F
                have h2 := ih2 (processNode B D c3 F).2
                have h1 := ih1 (processNode B D c2 (processNode B D c3 F).2).2
                have h0 := ih0 (processNode B D c1
                  (processNode B D c2 (processNode B D c3 F).2).2).2
                constructor
                · dsimp only
                  omega
                · dsimp only
                  omega

theorem processStack_budget (B : Body) (D : Decisions) :
    ∀ (l : List PTree) (F : Frame),
      (processStack B D l F).2.splitInits + (processStack B D l F).2.splitBudget
        = F.splitInits + F.splitBudget ∧
      (processStack B D l F).2.mergeInitsBudgeted +
          (processStack B D l F).2.mergeBudget
        = F.mergeInitsBudgeted + F.mergeBudget := by
  intro l
  induction l with
  | nil => intro F; exact ⟨rfl, rfl⟩
  | cons t rest ih =>
      intro F
      have h1 := ih F
      have h2 := processNode_budget B D t (processStack B D rest F).2
      simp only [processStack]
      constructor
      · dsimp only
        omega
      · dsimp only
        omega

/-- C3 (amended).  During a single `updateLOD` call, the number of split
operations initiated is at most `splitBudgetPerFrame`, and the number of
merge operations initiated from the distance-test branch is at most
`mergeBudgetPerFrame`; the merges forced on frustum- or distance-culled nodes
are, however, NOT counted against any budget (see the counterexample), so
the total number of merges in a frame can exceed `mergeBudgetPerFrame`. -/
theorem per_frame_budget (B : Body) (D : Decisions) (roots : List PTree)
    (s : Sys) :
    (updateLOD B D roots s).2.splitInits ≤ B.splitBudgetPerFrame ∧
    (updateLOD B D roots s).2.mergeInitsBudgeted ≤ B.mergeBudgetPerFrame := by
  have h := processStack_budget B D roots
    { sys := s, splitBudget := B.splitBudgetPerFrame,
      mergeBudget := B.mergeBudgetPerFrame, splitInits := 0,
      mergeInitsCulled := 0, mergeInitsBudgeted := 0 }
  dsimp only at h
  unfold updateLOD
  constructor
  · omega
  · omega

/-! ### Concrete traces
The decision oracles below drive `updateLOD` through concrete frames; the
distance/frustum tests are pure functions of the per-frame camera input,
so any Boolean assignment corresponds to some camera path (wantSplit and
wantMerge use hysteresis factors 9.2/14.2, satisfiable by moving the
camera close, away, and back). -/

def bodyDefault : Body :=
  { maxLevel := 9, splitBudgetPerFrame := 6, mergeBudgetPerFrame := 6 }

/-- A well-formed worker result for `gridN = 1` (36 = ((1+1)^2 + 4*2) * 3). -/
def msgGrid1 : ResultMsg :=
  { gridN := 1, pos := some (Array.mkArray 36 0),
    nrm := some (Array.mkArray 36 0), col := some (Array.mkArray 36 0) }

/-- Frame decisions keyed by node id; the frustum accepts everything. -/
def decOf (worth split merge : List ℕ) : Decisions :=
  { inFrustum := fun _ => true,
    worthTraversing := fun d => worth.contains d.nodeId,
    wantSplit := fun d => split.contains d.nodeId,
    wantMerge := fun d => merge.contains d.nodeId }

/-- Frame decisions with everything in view and worth traversing. -/
def decWS (split : List ℕ) : Decisions :=
  { inFrustum := fun _ => true,
    worthTraversing := fun _ => true,
    wantSplit := fun d => split.contains d.nodeId,
    wantMerge := fun _ => false }

def stepDeliverList (items : List (ℕ × ℕ × ResultMsg)) (w : WS) : WS :=
  items.foldl (fun w it => stepDeliver it.1 it.2.1 it.2.2 w) w

def deliverListOK : List (ℕ × ℕ × ResultMsg) → WS → Bool
  | [], _ => true
  | it :: rest, w =>
      decide ((it.1, it.2.1) ∈ w.sys.issued) && wellFormedMsg it.2.2 &&
        deliverListOK rest (stepDeliver it.1 it.2.1 it.2.2 w)

theorem reach_deliver_batch (B : Body) :
    ∀ (items : List (ℕ × ℕ × ResultMsg)) (w : WS), Reach B w →
      deliverListOK items w = true → Reach B (stepDeliverList items w) := by
  intro items
  induction items with
  | nil => intro w hr _; exact hr
  | cons it rest ih =>
      intro w hr hok
      simp only [deliverListOK, Bool.and_eq_true] at hok
      exact ih _ (Reach.deliver it.1 it.2.1 it.2.2 hr
        (of_decide_eq_true hok.1.1) hok.1.2) hok.2

/-- The property asserted by the original C1 claim, per node:
own mesh, or four fully-meshed children, or a pending job. -/
def literalOK : PTree → Bool
  | .leaf d => hasMesh d || d.genPending
  | .node d c0 c1 c2 c3 =>
      (hasMesh d || childrenReady (.node d c0 c1 c2 c3) || d.genPending) &&
      literalOK c0 && literalOK c1 && literalOK c2 && literalOK c3

/-- Trace for the C1 counterexample: mesh root 0, split it, mesh its four
children, finalize that split while splitting child 7, mesh 7's children,
and finalize 7's split. -/
def wsA1 : WS := stepDeliver 1 1 msgGrid1 initialWS
def wsA2 : WS := stepLOD bodyDefault (decOf [1] [1] []) wsA1
def wsA3 : WS := stepDeliverList
  [(7, 7, msgGrid1), (8, 8, msgGrid1), (9, 9, msgGrid1), (10, 10, msgGrid1)] wsA2
def wsA4 : WS := stepLOD bodyDefault (decOf [1, 7] [7] []) wsA3
def wsA5 : WS := stepDeliverList
  [(11, 11, msgGrid1), (12, 12, msgGrid1), (13, 13, msgGrid1), (14, 14, msgGrid1)] wsA4
def wsA6 : WS := stepLOD bodyDefault (decOf [1, 7] [] []) wsA5

def countMergingT : PTree → ℕ
  | .leaf d => if d.mergeInProgress then 1 else 0
  | .node d c0 c1 c2 c3 =>
      (if d.mergeInProgress then 1 else 0) + countMergingT c0 +
        countMergingT c1 + countMergingT c2 + countMergingT c3

def countMergingList (l : List PTree) : ℕ := (l.map countMergingT).sum

/-- Trace for the C3 counterexample: mesh all six roots, split all six
(consuming the whole split budget of one frame), mesh the 24 children,
split the four children of root 0, mesh the 16 grandchildren, and
finalize everything.  The state `wsB6` then holds nine meshless nodes
with children: the six roots and root 0's four children ... minus root 0
itself which keeps children 27-30. -/
def wsB1 : WS := stepDeliverList
  [(1, 1, msgGrid1), (2, 2, msgGrid1), (3, 3, msgGrid1),
   (4, 4, msgGrid1), (5, 5, msgGrid1), (6, 6, msgGrid1)] initialWS
def wsB2 : WS := stepLOD bodyDefault (decWS [1, 2, 3, 4, 5, 6]) wsB1
def wsB3 : WS := stepDeliverList
  ((List.range 24).map (fun i => (i + 7, i + 7, msgGrid1))) wsB2
def wsB4 : WS := stepLOD bodyDefault (decWS [27, 28, 29, 30]) wsB3
def wsB5 : WS := stepDeliverList
  ((List.range 16).map (fun i => (i + 31, i + 31, msgGrid1))) wsB4
def wsB6 : WS := stepLOD bodyDefault (decWS []) wsB5

theorem reach_wsA6 : Reach bodyDefault wsA6 := by
  have h0 : Reach bodyDefault initialWS := Reach.init
  have h1 : Reach bodyDefault wsA1 :=
    Reach.deliver 1 1 msgGrid1 h0 (by decide) (by decide)
  have h2 : Reach bodyDefault wsA2 := Reach.lod (decOf [1] [1] []) h1
  have h3 : Reach bodyDefault wsA3 :=
    reach_deliver_batch bodyDefault _ wsA2 h2 (by decide)
  have h4 : Reach bodyDefault wsA4 := Reach.lod (decOf [1, 7] [7] []) h3
  have h5 : Reach bodyDefault wsA5 :=
    reach_deliver_batch bodyDefault _ wsA4 h4 (by decide)
  exact Reach.lod (decOf [1, 7] [] []) h5

/-- C1 counterexample: a reachable state in which the original claim's
per-node disjunction fails.  After root 0 split (and the split finalized)
and its child (node 7) split in turn (also finalized), root 0 has no mesh,
no pending job, and its four children are not all meshed — node 7 now
covers its region through its own children. -/
theorem coverage_invariant_counterexample :
    Reach bodyDefault wsA6 ∧ wsA6.roots.all literalOK = false :=
  ⟨reach_wsA6, by decide⟩

set_option maxRecDepth 40000 in
theorem reach_wsB6 : Reach bodyDefault wsB6 := by
  have h0 : Reach bodyDefault initialWS := Reach.init
  have h1 : Reach bodyDefault wsB1 :=
    reach_deliver_batch bodyDefault _ initialWS h0 (by decide)
  have h2 : Reach bodyDefault wsB2 := Reach.lod (decWS [1, 2, 3, 4, 5, 6]) h1
  have h3 : Reach bodyDefault wsB3 :=
    reach_deliver_batch bodyDefault _ wsB2 h2 (by decide)
  have h4 : Reach bodyDefault wsB4 := Reach.lod (decWS [27, 28, 29, 30]) h3
  have h5 : Reach bodyDefault wsB5 :=
    reach_deliver_batch bodyDefault _ wsB4 h4 (by decide)
  exact Reach.lod (decWS []) h5

set_option maxRecDepth 40000 in
/-- C3 counterexample: a single `updateLOD` call on a reachable state
initiates nine merges although `mergeBudgetPerFrame = 6`.  With only
root 0 worth traversing, the culled branch calls `merge()` on the five
other roots and on root 0's four children — none of these merges consults
or decrements the merge budget — and indeed nine nodes end the frame with
`_mergeInProgress` set (none was merging before). -/
theorem per_frame_budget_counterexample :
    Reach bodyDefault wsB6 ∧
    bodyDefault.mergeBudgetPerFrame = 6 ∧
    (updateLOD bodyDefault (decOf [1] [] []) wsB6.roots wsB6.sys).2.mergeInitsCulled +
      (updateLOD bodyDefault (decOf [1] [] []) wsB6.roots wsB6.sys).2.mergeInitsBudgeted = 9 ∧
    countMergingList wsB6.roots = 0 ∧
    countMergingList (updateLOD bodyDefault (decOf [1] [] []) wsB6.roots wsB6.sys).1 = 9 :=
  ⟨reach_wsB6, rfl, by decide, by decide, by decide⟩

end GalaxyWalker
